import Mathlib

/-!
# Verification of the Micromed decoding and epoch-buffer core

Shallow embedding of the core of the `micromed-io` package:

* `buffer.py` — the sliding-window epoch buffer (`MicromedBuffer`);
* `in_out.py` — the binary header reader (`_read_header`, `_read_labcod`)
  and the sample decoder (`MicromedIO.decode_data_eeg_packet`,
  `MicromedIO.decode_data_header_packet`);
* `header.py` — the `ElectrodeReferences` dataclass.

Bytes are modelled as natural numbers below 256 in `List ℕ`; Python floats
are modelled as exact rationals `ℚ`; fallible Python code (exceptions) is
modelled with `Except String` / `Except DecodeErr` results.
-/

set_option maxRecDepth 100000

namespace Micromed

/-! ## Python / numpy primitives -/

/-- Python `int()` truncation of a rational towards zero. -/
def pyInt (q : ℚ) : ℤ := if q < 0 then -⌊-q⌋ else ⌊q⌋

/-- `int(q)` clamped to `ℕ` (all uses in the source are non-negative). -/
def natInt (q : ℚ) : ℕ := (pyInt q).toNat

/-- Python slice `f[a:b]` with clipping for non-negative bounds. -/
def pySlice {α : Type} (f : List α) (a b : ℕ) : List α := (f.take b).drop a

/-- Python slice `f[s:]` where `s` may be negative (numpy row tails). -/
def pySliceFrom {α : Type} (f : List α) (s : ℤ) : List α :=
  if 0 ≤ s then f.drop s.toNat else f.drop (((f.length : ℤ) + s).toNat)

/-- Byte at index `i` (all reads are guarded by explicit length checks). -/
def u8 (f : List ℕ) (i : ℕ) : ℕ := f.getD i 0

/-- Little-endian unsigned 16-bit value at byte offset `i`. -/
def u16 (f : List ℕ) (i : ℕ) : ℕ := u8 f i + 256 * u8 f (i + 1)

/-- Little-endian unsigned 32-bit value at byte offset `i`. -/
def u32 (f : List ℕ) (i : ℕ) : ℕ := u16 f i + 65536 * u16 f (i + 2)

/-- Signed value of one byte (struct format "b"). -/
def i8 (f : List ℕ) (i : ℕ) : ℤ := if u8 f i < 128 then u8 f i else (u8 f i : ℤ) - 256

/-- Signed value of a little-endian 16-bit field (struct format "h"). -/
def i16 (f : List ℕ) (i : ℕ) : ℤ :=
  if u16 f i < 32768 then u16 f i else (u16 f i : ℤ) - 65536

/-- Signed value of a little-endian 32-bit field (struct format "i"). -/
def i32 (f : List ℕ) (i : ℕ) : ℤ :=
  if u32 f i < 2147483648 then u32 f i else (u32 f i : ℤ) - 4294967296

/-- ISO-8859-1 decoding: each byte is its own code point. -/
def decodeBytes (bs : List ℕ) : String := String.mk (bs.map Char.ofNat)

/-- Python `bytes.strip(b"\x01\x00")`: drop bytes 0 and 1 from both ends. -/
def trim01 (bs : List ℕ) : List ℕ :=
  ((bs.dropWhile (fun b => b = 0 ∨ b = 1)).reverse.dropWhile (fun b => b = 0 ∨ b = 1)).reverse

/-- numpy "S40" semantics: trailing NUL bytes are stripped on retrieval. -/
def rstrip0 (bs : List ℕ) : List ℕ := (bs.reverse.dropWhile (fun b => b = 0)).reverse

/-- Python `str.strip()` whitespace set. -/
def isWsChar (c : Char) : Bool :=
  c = ' ' ∨ c = Char.ofNat 9 ∨ c = Char.ofNat 10 ∨ c = Char.ofNat 13 ∨
    c = Char.ofNat 11 ∨ c = Char.ofNat 12

/-- Python `str.strip()`. -/
def pyStrip (s : String) : String :=
  String.mk (((s.toList.dropWhile isWsChar).reverse.dropWhile isWsChar).reverse)

/-- Substring test on lists (used for the Python `"MKR" in ch` test). -/
def listSub {α : Type} [DecidableEq α] (pat : List α) : List α → Bool
  | [] => pat.isEmpty
  | a :: rest => pat.isPrefixOf (a :: rest) || listSub pat rest

/-- Python `pat in s` on strings. -/
def strSub (pat s : String) : Bool := listSub pat.toList s.toList

/-- Sequential effectful map, the embedding of a Python `for` loop that
builds a list and may raise. -/
def mapE {ε α β : Type} (g : α → Except ε β) : List α → Except ε (List β)
  | [] => .ok []
  | a :: as => do
    let b ← g a
    let bs ← mapE g as
    .ok (b :: bs)

/-! ## Epoch buffer (`buffer.py`, `MicromedBuffer`) -/

/-- The state of `MicromedBuffer` restricted to the fields used by
`update_epoch_buffer`, for an already-initialized buffer (`epoch_buffer`
not `None`).  `picksId` is `self.picks_id`, `epochBuffer` and
`currentEpoch` are channel-major matrices, `currentBufferLength` is the
write cursor. -/
structure EpochState where
  minSamplingRate : ℚ
  epochDuration : ℚ
  epochOverlap : ℚ
  picksId : List ℕ
  epochBuffer : List (List ℚ)
  currentEpoch : List (List ℚ)
  currentBufferLength : ℕ

/-- `MicromedBuffer.__init__` stores `self.picks` (a field of the
`MicromedIO` base) and the epoch parameters; `epoch_buffer` and
`current_epoch` start as `None` and the cursor at 0. -/
structure MicromedBufferNew where
  picks : Option (List String)
  epochDuration : ℚ
  epochOverlap : ℚ
  epochBufferNone : Bool
  currentEpochNone : Bool
  currentBufferLength : ℕ

/-- Embedding of `MicromedBuffer.__init__` (buffer.py lines 57-68).  The
constructor only stores its arguments; it performs no validation of the
epoch parameters and cannot raise, which we record by giving it an
`Except` result that is always `.ok`. -/
def micromedBufferInit (epochDuration epochOverlap : ℚ) (picks : Option (List String)) :
    Except String MicromedBufferNew :=
  .ok { picks := picks, epochDuration := epochDuration, epochOverlap := epochOverlap,
        epochBufferNone := true, currentEpochNone := true, currentBufferLength := 0 }

/-- Embedding of `MicromedBuffer.init_buffer` (buffer.py lines 70-88):
allocates the fill buffer and window holder with
`int(min_sampling_rate * epoch_duration)` columns.  `np.empty` leaves the
contents arbitrary: the parameter `u` stands for the indeterminate initial
value. -/
def initBuffer (rate dur ovl : ℚ) (picksId : List ℕ) (u : ℚ) : EpochState :=
  { minSamplingRate := rate, epochDuration := dur, epochOverlap := ovl, picksId := picksId,
    epochBuffer := List.replicate picksId.length (List.replicate (natInt (rate * dur)) u),
    currentEpoch := List.replicate picksId.length (List.replicate (natInt (rate * dur)) u),
    currentBufferLength := 0 }

/-- numpy column-slice assignment `row[a:b] = src` for one row: sides are
clipped to the row length and the assignment fails (broadcast error)
unless the source width equals the slice width.  (numpy broadcasting of
width-1 sources is not modelled; no claim exercises it.) -/
def assignCols (row : List ℚ) (a b : ℕ) (src : List ℚ) : Except String (List ℚ) :=
  let a1 := min a row.length
  let b1 := min b row.length
  if src.length = b1 - a1 then .ok (row.take a1 ++ src ++ row.drop (a1 + src.length))
  else .error "ValueError: could not broadcast"

/-- `mat[:, a:b] = srcs` row by row (numpy also requires equal row counts). -/
def assignColsMat : List (List ℚ) → ℕ → ℕ → List (List ℚ) → Except String (List (List ℚ))
  | [], _, _, [] => .ok []
  | r :: rs, a, b, s :: ss => do
    let r1 ← assignCols r a b s
    let rest ← assignColsMat rs a b ss
    .ok (r1 :: rest)
  | _, _, _, _ => .error "ValueError: shape mismatch"

/-- Number of samples in an incoming chunk: `self.current_data_eeg.shape[1]`
(rows of a numpy 2-d array all have the same length). -/
def chunkWidth (data : List (List ℚ)) : ℕ := (data.headD []).length

/-- The row selection `self.current_data_eeg[self.picks_id, :]`. -/
def selectRows (picksId : List ℕ) (data : List (List ℚ)) : List (List ℚ) :=
  picksId.map (fun i => data.getD i [])

/-- Embedding of `MicromedBuffer.update_epoch_buffer` (buffer.py lines
90-167) for an initialized buffer.  Returns the new state and the
`has_new_epoch` flag.  The window length is read from the buffer shape and
the overlap is recomputed from the header fields, as in the source.
(`remaining_size` is computed with natural subtraction; it agrees with the
Python integer subtraction whenever the cursor does not exceed the window
length, an invariant of every reachable state considered by the claims.) -/
def updateEpochBuffer (st : EpochState) (data : List (List ℚ)) :
    Except String (EpochState × Bool) :=
  let sizeToAdd := chunkWidth data
  let nOverlap := natInt (st.minSamplingRate * st.epochOverlap)
  let wlen := (st.epochBuffer.headD []).length
  let sel := selectRows st.picksId data
  if st.currentBufferLength + sizeToAdd < wlen then do
    let buf ← assignColsMat st.epochBuffer st.currentBufferLength
      (st.currentBufferLength + sizeToAdd) sel
    .ok ({ st with epochBuffer := buf,
                   currentBufferLength := st.currentBufferLength + sizeToAdd }, false)
  else if st.currentBufferLength + sizeToAdd = wlen then do
    let buf ← assignColsMat st.epochBuffer st.currentBufferLength
      (st.currentBufferLength + sizeToAdd) sel
    let seeded ← assignColsMat buf 0 nOverlap
      (buf.map (fun row => pySliceFrom row ((wlen : ℤ) - nOverlap)))
    .ok ({ st with epochBuffer := seeded, currentEpoch := buf,
                   currentBufferLength := nOverlap }, true)
  else do
    let remainingSize := wlen - st.currentBufferLength
    let overSize := sizeToAdd - remainingSize
    let buf ← assignColsMat st.epochBuffer st.currentBufferLength wlen
      (sel.map (fun row => row.take remainingSize))
    let seeded ← assignColsMat buf 0 nOverlap
      (buf.map (fun row => pySliceFrom row ((wlen : ℤ) - nOverlap)))
    let buf2 ← assignColsMat seeded nOverlap (nOverlap + overSize)
      (sel.map (fun row => row.drop remainingSize))
    .ok ({ st with epochBuffer := buf2, currentEpoch := buf,
                   currentBufferLength := overSize + nOverlap }, true)

/-- Run a sequence of `update_epoch_buffer` calls, collecting every window
stored into `current_epoch` at an update that returned `True`. -/
def runEpochUpdates (st : EpochState) : List (List (List ℚ)) →
    Except String (EpochState × List (List (List ℚ)))
  | [] => .ok (st, [])
  | c :: rest => do
    let r ← updateEpochBuffer st c
    let f ← runEpochUpdates r.1 rest
    .ok (f.1, (if r.2 then [r.1.currentEpoch] else []) ++ f.2)

/-- Window length `int(rate * duration)` of a buffer state. -/
def EpochState.wlen (st : EpochState) : ℕ := natInt (st.minSamplingRate * st.epochDuration)

/-- Overlap length `int(rate * overlap)` of a buffer state. -/
def EpochState.olen (st : EpochState) : ℕ := natInt (st.minSamplingRate * st.epochOverlap)

/-- A matrix has `p` rows of width `w` each. -/
def matDims (m : List (List ℚ)) (p w : ℕ) : Prop :=
  m.length = p ∧ ∀ row ∈ m, row.length = w

/-- Well-formed initialized buffer state: the configuration satisfies the
documented constraints (`0 ≤ overlap < duration`, non-negative rate, at
least one picked channel), the matrices have the allocated shape and the
cursor lies inside the window. -/
def WFEpoch (st : EpochState) : Prop :=
  0 ≤ st.minSamplingRate ∧ 0 ≤ st.epochOverlap ∧ st.epochOverlap < st.epochDuration ∧
  0 < st.picksId.length ∧
  matDims st.epochBuffer st.picksId.length st.wlen ∧
  matDims st.currentEpoch st.picksId.length st.wlen ∧
  st.currentBufferLength ≤ st.wlen

/-- Well-formed incoming chunk for a given pick list: rectangular, and all
picked row indices in range. -/
def WFChunk (picksId : List ℕ) (data : List (List ℚ)) : Prop :=
  (∀ row ∈ data, row.length = chunkWidth data) ∧ ∀ i ∈ picksId, i < data.length

/-! ## Sample decoder (`in_out.py`, `MicromedIO.decode_data_eeg_packet`) -/

/-- The three attributes of a `micromed_header.elec_refs` entry that
`decode_data_eeg_packet` reads (in_out.py lines 227-231): `.factor`,
`.logic_ground` and `.units`. -/
structure ElecRef where
  factor : ℚ
  logicGround : ℤ
  units : String

/-- The default `ElecRef` used for out-of-range `getD` reads (never
produced by the code; only a `getD` placeholder). -/
def defaultElecRef : ElecRef := { factor := 0, logicGround := 0, units := "" }

/-- The `micromed_header` fields consumed by `decode_data_eeg_packet`. -/
structure MicromedHdr where
  nbOfBytes : ℕ
  nbOfChannels : ℕ
  chNames : List String
  elecRefs : List ElecRef

/-- The exceptions a `decode_data_eeg_packet` call can raise. -/
inductive DecodeErr : Type where
  /-- `ValueError` for `n_bytes` outside {1, 2, 4} (in_out.py line 206). -/
  | unsupportedWidth : ℕ → DecodeErr
  /-- `np.frombuffer`: buffer size not a multiple of the element size. -/
  | bufferNotMultiple : DecodeErr
  /-- `ZeroDivisionError` on `packet_size // n_bytes // nb_of_channels`. -/
  | zeroChannels : DecodeErr
  /-- `np.take` / indexing out of bounds. -/
  | indexOut : DecodeErr
  /-- list `.index` / `.remove` of an absent element. -/
  | absentElement : DecodeErr
  /-- `ValueError` "Cannot convert data to Volts" (in_out.py line 242). -/
  | unconvertibleUnit : String → DecodeErr

/-- `np.frombuffer(packet, dtype=np.uint16)`: fails unless the byte count
is a multiple of 2, else yields the little-endian 16-bit values. -/
def frombufferU16 (packet : List ℕ) : Except DecodeErr (List ℤ) :=
  if packet.length % 2 = 0 then
    .ok ((List.range (packet.length / 2)).map (fun k => (u16 packet (2 * k) : ℤ)))
  else .error .bufferNotMultiple

/-- `np.frombuffer(packet, dtype=np.int32)`: fails unless the byte count
is a multiple of 4, else yields the little-endian signed 32-bit values. -/
def frombufferI32 (packet : List ℕ) : Except DecodeErr (List ℤ) :=
  if packet.length % 4 = 0 then
    .ok ((List.range (packet.length / 4)).map (fun k => i32 packet (4 * k)))
  else .error .bufferNotMultiple

/-- `np.take(xs, i)` with the numpy out-of-bounds error. -/
def npTake (xs : List ℤ) (i : ℕ) : Except DecodeErr ℤ :=
  if i < xs.length then .ok (xs.getD i 0) else .error .indexOut

/-- The unit-to-volt ratio of the `use_volt` branch (in_out.py lines
230-245); `none` for a unit with no defined ratio. -/
def unitToVolt (u : String) : Option ℚ :=
  if u = "nV" then some (1 / 1000000000)
  else if u = "μV" then some (1 / 1000000)
  else if u = "mV" then some (1 / 1000)
  else if u = "V" then some 1
  else none

/-- The per-channel multiplier: `factor`, times the unit ratio when
`use_volt` is requested (raising for a unit with no ratio). -/
def channelFactor (er : ElecRef) (useVolt : Bool) : Except DecodeErr ℚ :=
  if useVolt then
    match unitToVolt er.units with
    | none => .error (.unconvertibleUnit er.units)
    | some r => .ok (er.factor * r)
  else .ok er.factor

/-- One decoded output row, for stored channel `i` (in_out.py lines
222-254): the samples `raw[t + i]` for `t = j * nb_of_channels`, raw or
calibrated as `(raw - logic_ground) * factor`. -/
def decodeRow (hdr : MicromedHdr) (raws : List ℤ) (ns : ℕ) (keepRaw useVolt : Bool)
    (i : ℕ) : Except DecodeErr (List ℚ) :=
  if keepRaw then
    mapE (fun j => do
      let v ← npTake raws (j * hdr.nbOfChannels + i)
      .ok (v : ℚ)) (List.range ns)
  else do
    let er ← (if i < hdr.elecRefs.length then .ok (hdr.elecRefs.getD i defaultElecRef)
              else .error .indexOut)
    let factor ← channelFactor er useVolt
    mapE (fun j => do
      let v ← npTake raws (j * hdr.nbOfChannels + i)
      .ok (((v : ℚ) - er.logicGround) * factor)) (List.range ns)

/-- `np.delete(rows, idx, axis=0)` with the numpy bounds error. -/
def npDeleteRow (rows : List (List ℚ)) (idx : ℕ) : Except DecodeErr (List (List ℚ)) :=
  if idx < rows.length then .ok (rows.take idx ++ rows.drop (idx + 1)) else .error .indexOut

/-- `np.isclose(a, b)` with numpy's default tolerances
(`|a - b| ≤ atol + rtol * |b|`, `rtol = 1e-5`, `atol = 1e-8`). -/
def npIsClose (a b : ℚ) : Bool := |a - b| ≤ 1 / 100000000 + (1 / 100000) * |b|

/-- `MicromedIO._check_eegs_data` (in_out.py lines 274-295): every sample of
every MKR channel must have absolute value close to 50.  The row of a
channel is looked up through `current_channels.index`. -/
def checkEegsData (rows : List (List ℚ)) (curChannels : List String)
    (mkrChannels : List String) : Except DecodeErr Bool := do
  let oks ← mapE (fun ch => do
      if curChannels.contains ch then
        let idx := List.indexOf ch curChannels
        if idx < rows.length then
          .ok ((rows.getD idx []).all (fun x => npIsClose |x| 50))
        else .error .indexOut
      else .error .absentElement) mkrChannels
  .ok (oks.all id)

/-- The MKR-channel removal loop at the end of `decode_data_eeg_packet`
(in_out.py lines 263-270): every MKR channel that was not originally
requested is deleted, locating its row through `current_channels.index`. -/
def removeMkrRows (origPicks : List String) :
    List String → List (List ℚ) × List String → Except DecodeErr (List (List ℚ) × List String)
  | [], acc => .ok acc
  | ch :: rest, (rows, cur) =>
    if origPicks.contains ch then removeMkrRows origPicks rest (rows, cur)
    else
      if cur.contains ch then do
        let rows1 ← npDeleteRow rows (List.indexOf ch cur)
        removeMkrRows origPicks rest (rows1, cur.erase ch)
      else .error .absentElement

/-- The Python loop `for ch in mkr_channels: if ch not in picks: picks.append(ch)`. -/
def appendMissing (picks : List String) (mkrChannels : List String) : List String :=
  mkrChannels.foldl (fun acc ch => if acc.contains ch then acc else acc ++ [ch]) picks

/-- Embedding of `MicromedIO.decode_data_eeg_packet` (in_out.py lines
144-272).  Result: the decoded matrix (`self.current_data_eeg`), the final
channel list (`self.current_channels`) and the `is_well_extracted` flag. -/
def decodeDataEegPacket (hdr : MicromedHdr) (packet : List ℕ) (picks : Option (List String))
    (keepRaw useVolt checkData : Bool) :
    Except DecodeErr (List (List ℚ) × List String × Bool) := do
  let packetSize := packet.length
  let nBytes := hdr.nbOfBytes
  let nChan := hdr.nbOfChannels
  let picks0 := picks.getD hdr.chNames
  let useI32 ←
    if nBytes = 1 ∨ nBytes = 2 then .ok false
    else if nBytes = 4 then .ok true
    else .error (.unsupportedWidth nBytes)
  let mkrChannels := if checkData then hdr.chNames.filter (fun ch => strSub "MKR" ch) else []
  let picks1 := if checkData then appendMissing picks0 mkrChannels else picks0
  let raws ← if useI32 then frombufferI32 packet else frombufferU16 packet
  let _ ← (if nChan = 0 then .error .zeroChannels else .ok (0 : ℕ))
  let ns := packetSize / nBytes / nChan
  let rowsOpt ← mapE (fun i =>
      if i < hdr.chNames.length then
        if picks1.contains (hdr.chNames.getD i "") then do
          let r ← decodeRow hdr raws ns keepRaw useVolt i
          .ok (some r)
        else .ok none
      else .error .indexOut) (List.range nChan)
  let rows := rowsOpt.reduceOption
  if checkData then do
    let isWell ← checkEegsData rows picks1 mkrChannels
    let pruned ← removeMkrRows picks0 mkrChannels (rows, picks1)
    .ok (pruned.1, pruned.2, isWell)
  else
    .ok (rows, picks1, true)

/-! ## Binary layout reader (`in_out.py`, `_read_labcod` and `_read_header`) -/

/-- The `UNITS` table of in_out.py (unit code to unit string). -/
def UNITS : List (ℤ × String) :=
  [(-1, "nV"), (0, "μV"), (1, "mV"), (2, "V"), (100, "%"), (101, "bpm"), (102, "dimentionless")]

/-- `UNITS.get(k, UNITS[0])`: table lookup with default `"μV"`. -/
def unitsGet (k : ℤ) : String := ((UNITS.lookup k).getD ((UNITS.lookup 0).getD ""))

/-- The `HEADER_TYPE` table of in_out.py (five accepted codes). -/
def HEADER_TYPE : List (ℤ × String) :=
  [(0, "Micromed System 1 Header type"), (1, "Micromed System 1 Header type"),
   (2, "Micromed System 2 Header type"), (3, "Micromed System98 Header type"),
   (4, "Micromed System98 Header type")]

/-- The `ACQUISITION_UNIT` table keys (descriptions elided; only membership
and the `str(code)` fallback are observable downstream). -/
def ACQUISITION_UNIT_KEYS : List ℤ :=
  [0, 2, 6, 7, 8, 9, 10, 11, 12, 13, 14, 15, 16, 17, 18, 19, 20, 21, 22, 23, 24]

/-- `ACQUISITION_UNIT.get(code, str(code))`, with the table descriptions
abbreviated to `"acq_unit <code>"`; no claim inspects the description
text, only which branch is taken. -/
def acquisitionUnitName (k : ℤ) : String :=
  if ACQUISITION_UNIT_KEYS.contains k then "acq_unit " ++ toString k else toString k

/-- The scale factor computed by `_read_labcod` (in_out.py line 565):
`float(ph_max - ph_min) / float(l_max - l_min + 1)`. -/
def labcodFactor (lMin lMax phMin phMax : ℤ) : ℚ :=
  ((phMax - phMin : ℤ) : ℚ) / ((lMax - lMin + 1 : ℤ) : ℚ)

/-- One decoded `LABCOD` channel record: the fields of the `chan` dict that
are consumed downstream (`chan_name`, `ground`, `logical_ground`, `factor`,
`units`).  The remaining diagnostic fields (status, filters, coordinates,
description) are parsed by the source only into unused dict entries; the
model keeps their parse-error effects (length guards) but not their
values. -/
structure LabChan where
  chanName : String
  ground : String
  logicalGround : ℤ
  factor : ℚ
  units : String

/-- One iteration of the `_read_labcod` loop (in_out.py lines 547-593) for
channel index `iCh`, reading the 128-byte record at `pos + iCh * 128`.
The struct unpacks of the record span byte offsets 14 to 104 relative to
the record start; a buffer too short for them raises (`struct.error`),
and a zero logical range raises `ZeroDivisionError` before the unit field
is read. -/
def readLabcodChan (f : List ℕ) (pos : ℕ) (iCh : ℕ) : Except String LabChan :=
  let base := pos + iCh * 128
  if base + 104 ≤ f.length then
    let lMin := i32 f (base + 14)
    let lMax := i32 f (base + 18)
    let lGround := i32 f (base + 22)
    let phMin := i32 f (base + 26)
    let phMax := i32 f (base + 30)
    if lMax - lMin + 1 = 0 then .error "ZeroDivisionError: float division by zero"
    else
      .ok { chanName := decodeBytes (trim01 (pySlice f (base + 2) (base + 8))),
            ground := decodeBytes (trim01 (pySlice f (base + 8) (base + 14))),
            logicalGround := lGround,
            factor := labcodFactor lMin lMax phMin phMax,
            units := unitsGet (i16 f (base + 34)) }
  else .error "struct.error: unpack requires more bytes"

/-- `_read_labcod` (in_out.py lines 541-595): one record per entry of the
`ORDER` array. -/
def readLabcod (f : List ℕ) (pos : ℕ) (order : List ℕ) : Except String (List LabChan) :=
  mapE (readLabcodChan f pos) order

/-- A Python `datetime.datetime` (validated calendar value). -/
structure PyDateTime where
  year : ℤ
  month : ℤ
  day : ℤ
  hour : ℤ
  minute : ℤ
  second : ℤ

/-- Gregorian month length as used by `datetime`. -/
def daysInMonth (y m : ℤ) : ℤ :=
  if m = 2 then (if (y % 4 = 0 ∧ y % 100 ≠ 0) ∨ y % 400 = 0 then 29 else 28)
  else if m = 4 ∨ m = 6 ∨ m = 9 ∨ m = 11 then 30
  else 31

/-- `datetime.datetime(y, mo, d, h, mi, s)`: raises `ValueError` outside
the calendar ranges. -/
def mkDatetime (y mo d h mi s : ℤ) : Except String PyDateTime :=
  if 1 ≤ y ∧ y ≤ 9999 ∧ 1 ≤ mo ∧ mo ≤ 12 ∧ 1 ≤ d ∧ d ≤ daysInMonth y mo ∧
     0 ≤ h ∧ h < 24 ∧ 0 ≤ mi ∧ mi < 60 ∧ 0 ≤ s ∧ s < 60 then
    .ok { year := y, month := mo, day := d, hour := h, minute := mi, second := s }
  else .error "ValueError: invalid datetime"

/-- The 15-entry zone directory at byte offset 176 (each entry an 8-byte
space-padded name, a 4-byte position and a 4-byte length), read into a
Python dict keyed by the stripped name. -/
def zoneDirectory (f : List ℕ) : List (String × ℕ × ℕ) :=
  (List.range 15).map (fun k =>
    (pyStrip (decodeBytes (pySlice f (176 + 16 * k) (176 + 16 * k + 8))),
     u32 f (176 + 16 * k + 8), u32 f (176 + 16 * k + 12)))

/-- Python dict lookup (`zones[name]`): later insertions overwrite earlier
ones, and a missing key raises `KeyError`. -/
def dictGet (d : List (String × ℕ × ℕ)) (k : String) : Except String (ℕ × ℕ) :=
  match d.reverse.lookup k with
  | some v => .ok v
  | none => .error ("KeyError: " ++ k)

/-- `np.frombuffer(f[pos:], dtype="u2", count)`: fails when fewer than
`2 * count` bytes remain, else yields the 16-bit values. -/
def frombufferU16At (f : List ℕ) (pos count : ℕ) : Except String (List ℕ) :=
  if 2 * count ≤ f.length - pos then
    .ok ((List.range count).map (fun k => u16 f (pos + 2 * k)))
  else .error "ValueError: buffer is smaller than requested size"

/-- Length guard of `np.frombuffer(f[pos:], dtype, count=length/itemsize)`
for a record dtype whose values are not consumed downstream. -/
def frombufferGuard (f : List ℕ) (pos len itemsize : ℕ) : Except String Unit :=
  if itemsize * (len / itemsize) ≤ f.length - pos then .ok ()
  else .error "ValueError: buffer is smaller than requested size"

/-- The `NOTE` zone: `(u4 sample, S40 text)` records (`count = length / 44`);
numpy strips trailing NUL bytes of an `S40` value on retrieval. -/
def readNotesZone (f : List ℕ) (pos len : ℕ) : Except String (List (ℕ × List ℕ)) :=
  if 44 * (len / 44) ≤ f.length - pos then
    .ok ((List.range (len / 44)).map (fun k =>
      (u32 f (pos + 44 * k), rstrip0 (pySlice f (pos + 44 * k + 4) (pos + 44 * k + 44)))))
  else .error "ValueError: buffer is smaller than requested size"

/-- The `TRIGGER` zone: `(u4 sample, u2 code)` records (`count = length / 6`). -/
def readTriggerZone (f : List ℕ) (pos len : ℕ) : Except String (List (ℕ × ℕ)) :=
  if 6 * (len / 6) ≤ f.length - pos then
    .ok ((List.range (len / 6)).map (fun k =>
      (u32 f (pos + 6 * k), u16 f (pos + 6 * k + 4))))
  else .error "ValueError: buffer is smaller than requested size"

/-- `_read_montage` (in_out.py lines 598-627): iterates 4096-byte records
while `i_b < pos + length`; each iteration unpacks fields ending at
relative offset 2376.  Only the length-guard effect is modelled (montage
values are not consumed by any claim). -/
def readMontageGuard (f : List ℕ) (pos len : ℕ) : Except String Unit :=
  if (List.range ((len + 4095) / 4096)).all (fun k => pos + 4096 * k + 2376 ≤ f.length)
  then .ok () else .error "struct.error: unpack requires more bytes"

/-- The fields of the `_read_header` result dict (`orig`) that are consumed
by `decode_data_header_packet`.  Fields that the source parses into unused
dict entries (title, laboratory, date of birth, filetype, multiplexer,
compression, montage count, video fields, flags, segments, impedances,
montages, average block, events) are parsed only for their error effects. -/
structure HeaderOrig where
  surname : String
  name : String
  startTime : PyDateTime
  acquisitionUnit : String
  boData : ℕ
  nChan : ℕ
  sFreq : ℕ
  nBytes : ℕ
  headerType : String
  order : List ℕ
  chans : List LabChan
  notes : List (ℕ × List ℕ)
  trigger : List (ℕ × ℕ)

/-- Embedding of `_read_header` (in_out.py lines 298-446).  Fixed-offset
fields follow the source exactly (surname at 64, recording time at 128,
acquisition unit at 134, data offset at 138, channel count at 142,
sampling rate at 146, bytes per sample at 148, header type at 175, zone
directory at 176).  Consecutive struct unpacks of the fixed region are
guarded by a single length check at their maximal extent (416 bytes);
each individual unpack failure and the combined one are the same
observable outcome (an exception). -/
def readHeader (f : List ℕ) : Except String HeaderOrig := do
  let surname := pyStrip (decodeBytes (pySlice f 64 86))
  let name := pyStrip (decodeBytes (pySlice f 86 106))
  let _ ← (if 134 ≤ f.length then .ok () else .error "struct.error: unpack requires more bytes")
  let startTime ← mkDatetime (i8 f 130 + 1900) (i8 f 129) (i8 f 128) (i8 f 131) (i8 f 132)
    (i8 f 133)
  let _ ← (if 416 ≤ f.length then .ok () else .error "struct.error: unpack requires more bytes")
  let acquisitionUnit := acquisitionUnitName (i16 f 134)
  let boData := u32 f 138
  let nChan := u16 f 142
  let sFreq := u16 f 146
  let nBytes := u16 f 148
  let headerType ← (match HEADER_TYPE.lookup (i8 f 175) with
    | some s => .ok s
    | none => .error "KeyError: header_type")
  let zones := zoneDirectory f
  let orderZone ← dictGet zones "ORDER"
  let order ← frombufferU16At f orderZone.1 nChan
  let labZone ← dictGet zones "LABCOD"
  let chans ← readLabcod f labZone.1 order
  let noteZone ← dictGet zones "NOTE"
  let notes ← readNotesZone f noteZone.1 noteZone.2
  let flagsZone ← dictGet zones "FLAGS"
  let _ ← frombufferGuard f flagsZone.1 flagsZone.2 8
  let troncaZone ← dictGet zones "TRONCA"
  let _ ← frombufferGuard f troncaZone.1 troncaZone.2 8
  let impbZone ← dictGet zones "IMPED_B"
  let _ ← frombufferGuard f impbZone.1 impbZone.2 2
  let impeZone ← dictGet zones "IMPED_E"
  let _ ← frombufferGuard f impeZone.1 impeZone.2 2
  let montZone ← dictGet zones "MONTAGE"
  let _ ← readMontageGuard f montZone.1 montZone.2
  let compZone ← dictGet zones "COMPRESS"
  let _ ← (if compZone.1 + 20 ≤ f.length then .ok ()
           else .error "struct.error: unpack requires more bytes")
  let dvidZone ← dictGet zones "DVIDEO"
  let _ ← frombufferGuard f 0 dvidZone.2 16
  let evaZone ← dictGet zones "EVENT A"
  let _ ← frombufferGuard f evaZone.1 evaZone.2 12
  let evbZone ← dictGet zones "EVENT B"
  let _ ← frombufferGuard f evbZone.1 evbZone.2 12
  let trigZone ← dictGet zones "TRIGGER"
  let trigger ← readTriggerZone f trigZone.1 trigZone.2
  .ok { surname := surname, name := name, startTime := startTime,
        acquisitionUnit := acquisitionUnit, boData := boData, nChan := nChan,
        sFreq := sFreq, nBytes := nBytes, headerType := headerType,
        order := order, chans := chans, notes := notes, trigger := trigger }

/-! ## Header-packet decoding (`MicromedIO.decode_data_header_packet`) -/

/-- The field names of the `ElectrodeReferences` dataclass as declared in
header.py (lines 32-46): `logic_min`, `logic_max`, `logic_ground`,
`phy_min`, `phy_max`, `units` — and no `factor` field. -/
def electrodeReferencesFields : List String :=
  ["logic_min", "logic_max", "logic_ground", "phy_min", "phy_max", "units"]

/-- The construction `ElectrodeReferences(factor=..., logic_ground=...,
units=...)` performed by `decode_data_header_packet` (in_out.py lines
116-123).  A Python dataclass `__init__` accepts exactly its declared
fields as keywords, so the call raises `TypeError` whenever one of the
passed keywords is not a declared field. -/
def mkElectrodeReferences (factor : ℚ) (logicGround : ℤ) (units : String) :
    Except String ElecRef :=
  if ["factor", "logic_ground", "units"].all (fun kw => electrodeReferencesFields.contains kw)
  then .ok { factor := factor, logicGround := logicGround, units := units }
  else .error "TypeError: unexpected keyword argument factor"

/-- The `micromed_header` fields assigned by `decode_data_header_packet`. -/
structure MicromedHeaderRec where
  surname : String
  name : String
  nbOfChannels : ℕ
  order : List ℕ
  acqUnit : String
  minSamplingRate : ℕ
  nbOfBytes : ℕ
  headerType : String
  chNames : List String
  elecRefs : List ElecRef
  dataAddress : ℕ
  recordingDate : PyDateTime
  notes : List (ℕ × String)
  markers : List (ℕ × String)

/-- Embedding of `MicromedIO.decode_data_header_packet` (in_out.py lines
75-141): reads the header, derives channel names, validates `picks` and
builds `picks_id`, constructs the `elec_refs` entries, and collects the
note and marker tables up to their sentinels.  Returns the header record
together with `picks_id`. -/
def decodeDataHeaderPacket (packet : List ℕ) (picks : Option (List String)) :
    Except String (MicromedHeaderRec × List ℕ) := do
  let hdr ← readHeader packet
  let chNames := hdr.chans.map (fun d => d.chanName ++ "-" ++ d.ground)
  let picksId ← (match picks with
    | none => .ok (List.range hdr.order.length)
    | some ps => do
      let _ ← mapE (fun ch =>
        if chNames.contains ch then .ok ()
        else .error ("ValueError: " ++ ch ++ " is not in ch_names")) ps
      .ok (ps.map (fun ch => List.indexOf ch chNames)))
  let elecRefs ← mapE (fun d => mkElectrodeReferences d.factor d.logicalGround d.units) hdr.chans
  let notes := (hdr.notes.takeWhile (fun p => decide (p.1 ≠ 0))).map
    (fun p => (p.1, decodeBytes p.2))
  let markers := (hdr.trigger.takeWhile (fun p => !(p.1 = 4294967295 ∧ p.2 = 65535 : Bool))).map
    (fun p => (p.1, toString p.2))
  .ok ({ surname := hdr.surname, name := hdr.name, nbOfChannels := hdr.nChan,
         order := hdr.order, acqUnit := hdr.acquisitionUnit,
         minSamplingRate := hdr.sFreq, nbOfBytes := hdr.nBytes,
         headerType := hdr.headerType, chNames := chNames, elecRefs := elecRefs,
         dataAddress := hdr.boData, recordingDate := hdr.startTime,
         notes := notes, markers := markers }, picksId)

/-! ## Helper lemmas -/

theorem okBind {ε α β : Type} (a : α) (g : α → Except ε β) :
    (Except.ok a : Except ε α) >>= g = g a := rfl

theorem errBind {ε α β : Type} (e : ε) (g : α → Except ε β) :
    (Except.error e : Except ε α) >>= g = Except.error e := rfl

theorem mapE_nil {ε α β : Type} (g : α → Except ε β) : mapE g [] = .ok [] := rfl

theorem mapE_cons {ε α β : Type} (g : α → Except ε β) (a : α) (as : List α) :
    mapE g (a :: as) =
      (g a) >>= (fun b => (mapE g as) >>= (fun bs => Except.ok (b :: bs))) := rfl

theorem getD_mem {α : Type} (l : List α) (i : ℕ) (d : α) (h : i < l.length) :
    l.getD i d ∈ l := by
  induction l generalizing i with
  | nil => simp at h
  | cons x xs ih =>
    cases i with
    | zero => simp
    | succ k =>
      simp only [List.getD_cons_succ]
      exact List.mem_cons_of_mem x (ih k (by simpa using h))

theorem assignCols_eq_ok (row src : List ℚ) (a b : ℕ) (hab : a ≤ b) (hbl : b ≤ row.length)
    (hsrc : src.length = b - a) :
    assignCols row a b src = .ok (row.take a ++ src ++ row.drop b) := by
  have ha : min a row.length = a := min_eq_left (le_trans hab hbl)
  have hb : min b row.length = b := min_eq_left hbl
  simp only [assignCols, ha, hb]
  rw [if_pos hsrc]
  have hsum : a + src.length = b := by omega
  rw [hsum]

theorem assignCols_ok_inv {row src out : List ℚ} {a b : ℕ}
    (h : assignCols row a b src = .ok out) :
    src.length = min b row.length - min a row.length ∧
    out = row.take (min a row.length) ++ src ++ row.drop (min a row.length + src.length) := by
  by_cases hc : src.length = min b row.length - min a row.length
  · refine ⟨hc, ?_⟩
    simp only [assignCols, if_pos hc] at h
    exact (Except.ok.injEq _ _).mp h |>.symm
  · simp only [assignCols, if_neg hc] at h
    cases h

theorem assignCols_ok_length {row src out : List ℚ} {a b : ℕ}
    (h : assignCols row a b src = .ok out) : out.length = row.length := by
  obtain ⟨hw, rfl⟩ := assignCols_ok_inv h
  have h1 : min a row.length ≤ row.length := min_le_right _ _
  have h2 : min b row.length ≤ row.length := min_le_right _ _
  simp only [List.length_append, List.length_take, List.length_drop]
  omega

theorem assignColsMat_ok_length {m srcs out : List (List ℚ)} {a b : ℕ}
    (h : assignColsMat m a b srcs = .ok out) :
    out.length = m.length ∧
      ∀ i, (out.getD i []).length = (m.getD i []).length := by
  induction m generalizing srcs out with
  | nil =>
    cases srcs with
    | nil => simp only [assignColsMat] at h; cases h; exact ⟨rfl, fun i => rfl⟩
    | cons s ss => simp only [assignColsMat] at h; cases h
  | cons r rs ih =>
    cases srcs with
    | nil => simp only [assignColsMat] at h; cases h
    | cons s ss =>
      simp only [assignColsMat] at h
      cases h1 : assignCols r a b s with
      | error e => rw [h1] at h; cases h
      | ok r1 =>
        rw [h1, okBind] at h
        cases h2 : assignColsMat rs a b ss with
        | error e => rw [h2] at h; cases h
        | ok rest =>
          rw [h2, okBind] at h
          cases h
          obtain ⟨ihl, ihr⟩ := ih h2
          refine ⟨by simp [ihl], fun i => ?_⟩
          cases i with
          | zero => simpa using assignCols_ok_length h1
          | succ k => simpa using ihr k

theorem assignColsMat_eq_ok (a b : ℕ) :
    ∀ (m srcs : List (List ℚ)), m.length = srcs.length →
    (∀ p ∈ m.zip srcs, a ≤ b ∧ b ≤ p.1.length ∧ p.2.length = b - a) →
    assignColsMat m a b srcs =
      .ok ((m.zip srcs).map (fun p => p.1.take a ++ p.2 ++ p.1.drop b))
  | [], [], _, _ => rfl
  | [], _ :: _, hl, _ => by cases hl
  | _ :: _, [], hl, _ => by cases hl
  | r :: rs, s :: ss, hl, hp => by
    have hhead := hp (r, s) (by simp [List.zip_cons_cons])
    have htail : assignColsMat rs a b ss =
        .ok ((rs.zip ss).map (fun p => p.1.take a ++ p.2 ++ p.1.drop b)) :=
      assignColsMat_eq_ok a b rs ss (by simpa using hl)
        (fun p hpmem => hp p (by simp [List.zip_cons_cons, hpmem]))
    simp only [assignColsMat, assignCols_eq_ok r s a b hhead.1 hhead.2.1 hhead.2.2, okBind,
      htail, List.zip_cons_cons, List.map_cons]

theorem pySliceFrom_nonneg {α : Type} (l : List α) (s : ℤ) (hs : 0 ≤ s) :
    pySliceFrom l s = l.drop s.toNat := by
  simp [pySliceFrom, hs]

theorem selectRows_mem_width {picksId : List ℕ} {data : List (List ℚ)}
    (hC : WFChunk picksId data) :
    ∀ row ∈ selectRows picksId data, row.length = chunkWidth data := by
  intro row hrow
  simp only [selectRows, List.mem_map] at hrow
  obtain ⟨i, hi, rfl⟩ := hrow
  exact hC.1 _ (getD_mem _ _ _ (hC.2 i hi))

theorem selectRows_length (picksId : List ℕ) (data : List (List ℚ)) :
    (selectRows picksId data).length = picksId.length := by
  simp [selectRows]

theorem natInt_cast (n : ℕ) : natInt (n : ℚ) = n := by
  have h : ¬ ((n : ℚ) < 0) := not_lt.mpr (by positivity)
  simp [natInt, pyInt, h]

theorem natInt_mono {p q : ℚ} (h0 : 0 ≤ p) (hpq : p ≤ q) : natInt p ≤ natInt q := by
  have hp : ¬ (p < 0) := not_lt.mpr h0
  have hq : ¬ (q < 0) := not_lt.mpr (le_trans h0 hpq)
  simp only [natInt, pyInt, if_neg hp, if_neg hq]
  exact Int.toNat_le_toNat (Int.floor_le_floor hpq)

theorem olen_le_wlen {st : EpochState} (hWF : WFEpoch st) : st.olen ≤ st.wlen := by
  obtain ⟨hr, ho, hod, -⟩ := hWF
  exact natInt_mono (mul_nonneg hr ho)
    (mul_le_mul_of_nonneg_left (le_of_lt hod) hr)

theorem matDims_head_width {m : List (List ℚ)} {p w : ℕ} (h : matDims m p w) (hp : 0 < p) :
    (m.headD []).length = w := by
  obtain ⟨hl, hw⟩ := h
  cases m with
  | nil => simp at hl; omega
  | cons r rs => exact hw r (by simp)

theorem matDims_getD_width {m : List (List ℚ)} {p w : ℕ} (h : matDims m p w)
    {i : ℕ} (hi : i < p) : (m.getD i []).length = w := by
  obtain ⟨hl, hw⟩ := h
  exact hw _ (getD_mem _ _ _ (by omega))

theorem getD_map_lt {α β : Type} (f : α → β) (l : List α) (i : ℕ) (d : β) (d0 : α)
    (h : i < l.length) : (l.map f).getD i d = f (l.getD i d0) := by
  induction l generalizing i with
  | nil => simp at h
  | cons x xs ih =>
    cases i with
    | zero => simp
    | succ k => simpa using ih k (by simpa using h)

theorem zip_self_map {α β : Type} (f : α → β) :
    ∀ l : List α, l.zip (l.map f) = l.map (fun x => (x, f x))
  | [] => rfl
  | x :: xs => by simp [List.zip_cons_cons, zip_self_map f xs]

/-- The value written by a successful whole-slice assignment (proof-side
shorthand for the result of `assignColsMat`). -/
def fillMat (m : List (List ℚ)) (a b : ℕ) (srcs : List (List ℚ)) : List (List ℚ) :=
  (m.zip srcs).map (fun p => p.1.take a ++ p.2 ++ p.1.drop b)

/-- The value of the overlap-seeding assignment
`buf[:, :olen] = buf[:, wlen - olen:]` on rows of width `wlen` when
`olen ≤ wlen` (proof-side shorthand). -/
def seedMat (m : List (List ℚ)) (wlen olen : ℕ) : List (List ℚ) :=
  m.map (fun row => row.drop (wlen - olen) ++ row.drop olen)

theorem fillMat_length (m srcs : List (List ℚ)) (a b : ℕ) :
    (fillMat m a b srcs).length = min m.length srcs.length := by
  simp [fillMat]

theorem fillMat_width {m srcs : List (List ℚ)} {a b w : ℕ} (hab : a ≤ b) (hbw : b ≤ w)
    (hm : ∀ row ∈ m, row.length = w) (hs : ∀ sr ∈ srcs, sr.length = b - a) :
    ∀ row ∈ fillMat m a b srcs, row.length = w := by
  intro row hrow
  simp only [fillMat, List.mem_map] at hrow
  obtain ⟨q, hq, rfl⟩ := hrow
  obtain ⟨h1, h2⟩ := List.of_mem_zip hq
  have hw1 := hm _ h1
  have hw2 := hs _ h2
  simp only [List.length_append, List.length_take, List.length_drop, hw1, hw2]
  omega

theorem seedMat_length (m : List (List ℚ)) (wlen olen : ℕ) :
    (seedMat m wlen olen).length = m.length := by
  simp [seedMat]

theorem seedMat_width {m : List (List ℚ)} {w olen : ℕ} (holen : olen ≤ w)
    (hm : ∀ row ∈ m, row.length = w) :
    ∀ row ∈ seedMat m w olen, row.length = w := by
  intro row hrow
  simp only [seedMat, List.mem_map] at hrow
  obtain ⟨q, hq, rfl⟩ := hrow
  have hw1 := hm _ hq
  simp only [List.length_append, List.length_drop, hw1]
  omega

theorem seedMat_take {m : List (List ℚ)} {w olen : ℕ} (holen : olen ≤ w)
    (hm : ∀ row ∈ m, row.length = w) {i : ℕ} (hi : i < m.length) :
    ((seedMat m w olen).getD i []).take olen = (m.getD i []).drop (w - olen) := by
  rw [seedMat, getD_map_lt _ _ _ _ [] hi]
  have hw : (m.getD i []).length = w := hm _ (getD_mem _ _ _ hi)
  have hlen : ((m.getD i []).drop (w - olen)).length = olen := by
    simp only [List.length_drop, hw]; omega
  rw [List.take_left' hlen]

theorem assignColsMat_seed {buf : List (List ℚ)} {w olen : ℕ} (holen : olen ≤ w)
    (hw : ∀ row ∈ buf, row.length = w) :
    assignColsMat buf 0 olen
      (buf.map (fun row => pySliceFrom row ((w : ℤ) - olen))) =
      .ok (seedMat buf w olen) := by
  have htonat : ((w : ℤ) - olen).toNat = w - olen := by omega
  have hsf : ∀ row ∈ buf, pySliceFrom row ((w : ℤ) - olen) = row.drop (w - olen) := by
    intro row _
    rw [pySliceFrom_nonneg _ _ (by omega), htonat]
  rw [assignColsMat_eq_ok 0 olen buf _ (by simp)
    (fun p hp => by
      obtain ⟨h1, h2⟩ := List.of_mem_zip hp
      simp only [List.mem_map] at h2
      obtain ⟨row, hrow, hrs⟩ := h2
      refine ⟨Nat.zero_le _, by rw [hw _ h1]; omega, ?_⟩
      rw [← hrs, hsf _ hrow]
      simp only [List.length_drop, hw _ hrow]
      omega)]
  congr 1
  rw [zip_self_map, List.map_map, seedMat]
  refine List.map_congr_left ?_
  intro row hrow
  simp only [Function.comp_apply, List.take_zero, List.nil_append, Nat.zero_add]
  rw [hsf _ hrow]

theorem assignCols_fail {row src : List ℚ} {a b : ℕ}
    (h : src.length ≠ min b row.length - min a row.length) :
    assignCols row a b src = .error "ValueError: could not broadcast" := by
  simp only [assignCols, if_neg h]

theorem assignColsMat_fail_head {r s : List ℚ} {rs ss : List (List ℚ)} {a b : ℕ} {e : String}
    (h : assignCols r a b s = .error e) :
    assignColsMat (r :: rs) a b (s :: ss) = .error e := by
  simp only [assignColsMat, h, errBind]

theorem update_case_under (st : EpochState) (data : List (List ℚ))
    (hWF : WFEpoch st) (hC : WFChunk st.picksId data)
    (hlt : st.currentBufferLength + chunkWidth data < st.wlen) :
    updateEpochBuffer st data =
      .ok ({ st with
              epochBuffer := fillMat st.epochBuffer st.currentBufferLength
                (st.currentBufferLength + chunkWidth data) (selectRows st.picksId data),
              currentBufferLength := st.currentBufferLength + chunkWidth data }, false) := by
  obtain ⟨hr, ho, hod, hp, hbuf, hcur, hcb⟩ := hWF
  have hW : (st.epochBuffer.headD []).length = st.wlen := matDims_head_width hbuf hp
  have h1 : assignColsMat st.epochBuffer st.currentBufferLength
      (st.currentBufferLength + chunkWidth data) (selectRows st.picksId data) =
      .ok (fillMat st.epochBuffer st.currentBufferLength
        (st.currentBufferLength + chunkWidth data) (selectRows st.picksId data)) := by
    rw [assignColsMat_eq_ok _ _ _ _ (by rw [selectRows_length, hbuf.1])
      (fun p hp2 => by
        obtain ⟨hm1, hm2⟩ := List.of_mem_zip hp2
        refine ⟨by omega, by rw [hbuf.2 _ hm1]; omega, ?_⟩
        rw [selectRows_mem_width hC _ hm2]; omega)]
    rfl
  simp only [updateEpochBuffer, hW, if_pos hlt, h1, okBind]

theorem update_case_fill (st : EpochState) (data : List (List ℚ))
    (hWF : WFEpoch st) (hC : WFChunk st.picksId data)
    (hfill : st.currentBufferLength + chunkWidth data = st.wlen) :
    updateEpochBuffer st data =
      .ok ({ st with
              epochBuffer := seedMat (fillMat st.epochBuffer st.currentBufferLength st.wlen
                (selectRows st.picksId data)) st.wlen st.olen,
              currentEpoch := fillMat st.epochBuffer st.currentBufferLength st.wlen
                (selectRows st.picksId data),
              currentBufferLength := st.olen }, true) := by
  have hO : st.olen ≤ st.wlen := olen_le_wlen hWF
  obtain ⟨hr, ho, hod, hp, hbuf, hcur, hcb⟩ := hWF
  have hW : (st.epochBuffer.headD []).length = st.wlen := matDims_head_width hbuf hp
  have h1 : assignColsMat st.epochBuffer st.currentBufferLength
      (st.currentBufferLength + chunkWidth data) (selectRows st.picksId data) =
      .ok (fillMat st.epochBuffer st.currentBufferLength st.wlen
        (selectRows st.picksId data)) := by
    rw [hfill]
    rw [assignColsMat_eq_ok _ _ _ _ (by rw [selectRows_length, hbuf.1])
      (fun p hp2 => by
        obtain ⟨hm1, hm2⟩ := List.of_mem_zip hp2
        refine ⟨by omega, by rw [hbuf.2 _ hm1], ?_⟩
        rw [selectRows_mem_width hC _ hm2]; omega)]
    rfl
  have hfw : ∀ row ∈ fillMat st.epochBuffer st.currentBufferLength st.wlen
      (selectRows st.picksId data), row.length = st.wlen :=
    fillMat_width (by omega) le_rfl hbuf.2
      (fun sr hsr => by rw [selectRows_mem_width hC _ hsr]; omega)
  have h2 := assignColsMat_seed hO hfw
  have holen : natInt (st.minSamplingRate * st.epochOverlap) = st.olen := rfl
  simp only [updateEpochBuffer, hW, if_neg (by omega : ¬ (st.currentBufferLength +
    chunkWidth data < st.wlen)), if_pos hfill, h1, okBind, holen, h2, okBind]

theorem update_case_span (st : EpochState) (data : List (List ℚ))
    (hWF : WFEpoch st) (hC : WFChunk st.picksId data)
    (hgt : st.wlen < st.currentBufferLength + chunkWidth data)
    (hov : st.olen + (chunkWidth data - (st.wlen - st.currentBufferLength)) ≤ st.wlen) :
    updateEpochBuffer st data =
      .ok ({ st with
              epochBuffer := fillMat
                (seedMat (fillMat st.epochBuffer st.currentBufferLength st.wlen
                  ((selectRows st.picksId data).map
                    (fun row => row.take (st.wlen - st.currentBufferLength))))
                  st.wlen st.olen)
                st.olen
                (st.olen + (chunkWidth data - (st.wlen - st.currentBufferLength)))
                ((selectRows st.picksId data).map
                  (fun row => row.drop (st.wlen - st.currentBufferLength))),
              currentEpoch := fillMat st.epochBuffer st.currentBufferLength st.wlen
                ((selectRows st.picksId data).map
                  (fun row => row.take (st.wlen - st.currentBufferLength))),
              currentBufferLength := (chunkWidth data - (st.wlen - st.currentBufferLength)) +
                st.olen }, true) := by
  have hO : st.olen ≤ st.wlen := olen_le_wlen hWF
  obtain ⟨hr, ho, hod, hp, hbuf, hcur, hcb⟩ := hWF
  have hW : (st.epochBuffer.headD []).length = st.wlen := matDims_head_width hbuf hp
  have h1 : assignColsMat st.epochBuffer st.currentBufferLength st.wlen
      ((selectRows st.picksId data).map
        (fun row => row.take (st.wlen - st.currentBufferLength))) =
      .ok (fillMat st.epochBuffer st.currentBufferLength st.wlen
        ((selectRows st.picksId data).map
          (fun row => row.take (st.wlen - st.currentBufferLength)))) := by
    rw [assignColsMat_eq_ok _ _ _ _ (by rw [List.length_map, selectRows_length, hbuf.1])
      (fun p hp2 => by
        obtain ⟨hm1, hm2⟩ := List.of_mem_zip hp2
        simp only [List.mem_map] at hm2
        obtain ⟨row, hrow, hrs⟩ := hm2
        refine ⟨by omega, by rw [hbuf.2 _ hm1], ?_⟩
        rw [← hrs]
        simp only [List.length_take]
        rw [selectRows_mem_width hC _ hrow]; omega)]
    rfl
  have hfw : ∀ row ∈ fillMat st.epochBuffer st.currentBufferLength st.wlen
      ((selectRows st.picksId data).map
        (fun row => row.take (st.wlen - st.currentBufferLength))), row.length = st.wlen :=
    fillMat_width (by omega) le_rfl hbuf.2
      (fun sr hsr => by
        simp only [List.mem_map] at hsr
        obtain ⟨row, hrow, hrs⟩ := hsr
        rw [← hrs]
        simp only [List.length_take]
        rw [selectRows_mem_width hC _ hrow]; omega)
  have h2 := assignColsMat_seed hO hfw
  have hsw : ∀ row ∈ seedMat (fillMat st.epochBuffer st.currentBufferLength st.wlen
      ((selectRows st.picksId data).map
        (fun row => row.take (st.wlen - st.currentBufferLength)))) st.wlen st.olen,
      row.length = st.wlen := seedMat_width hO hfw
  have h3 : assignColsMat
      (seedMat (fillMat st.epochBuffer st.currentBufferLength st.wlen
        ((selectRows st.picksId data).map
          (fun row => row.take (st.wlen - st.currentBufferLength)))) st.wlen st.olen)
      st.olen (st.olen + (chunkWidth data - (st.wlen - st.currentBufferLength)))
      ((selectRows st.picksId data).map
        (fun row => row.drop (st.wlen - st.currentBufferLength))) =
      .ok (fillMat
        (seedMat (fillMat st.epochBuffer st.currentBufferLength st.wlen
          ((selectRows st.picksId data).map
            (fun row => row.take (st.wlen - st.currentBufferLength)))) st.wlen st.olen)
        st.olen (st.olen + (chunkWidth data - (st.wlen - st.currentBufferLength)))
        ((selectRows st.picksId data).map
          (fun row => row.drop (st.wlen - st.currentBufferLength)))) := by
    rw [assignColsMat_eq_ok _ _ _ _
      (by rw [seedMat_length, fillMat_length, List.length_map, selectRows_length, hbuf.1,
        List.length_map, selectRows_length]; simp)
      (fun p hp2 => by
        obtain ⟨hm1, hm2⟩ := List.of_mem_zip hp2
        simp only [List.mem_map] at hm2
        obtain ⟨row, hrow, hrs⟩ := hm2
        refine ⟨by omega, by rw [hsw _ hm1]; omega, ?_⟩
        rw [← hrs]
        simp only [List.length_drop]
        rw [selectRows_mem_width hC _ hrow]; omega)]
    rfl
  have holen : natInt (st.minSamplingRate * st.epochOverlap) = st.olen := rfl
  simp only [updateEpochBuffer, hW,
    if_neg (by omega : ¬ (st.currentBufferLength + chunkWidth data < st.wlen)),
    if_neg (by omega : ¬ (st.currentBufferLength + chunkWidth data = st.wlen)),
    h1, okBind, holen, h2, okBind, h3, okBind]

theorem update_case_span_fail (st : EpochState) (data : List (List ℚ))
    (hWF : WFEpoch st) (hC : WFChunk st.picksId data)
    (hgt : st.wlen < st.currentBufferLength + chunkWidth data)
    (hno : st.wlen < st.olen + (chunkWidth data - (st.wlen - st.currentBufferLength))) :
    updateEpochBuffer st data = .error "ValueError: could not broadcast" := by
  have hO : st.olen ≤ st.wlen := olen_le_wlen hWF
  obtain ⟨hr, ho, hod, hp, hbuf, hcur, hcb⟩ := hWF
  have hW : (st.epochBuffer.headD []).length = st.wlen := matDims_head_width hbuf hp
  have h1 : assignColsMat st.epochBuffer st.currentBufferLength st.wlen
      ((selectRows st.picksId data).map
        (fun row => row.take (st.wlen - st.currentBufferLength))) =
      .ok (fillMat st.epochBuffer st.currentBufferLength st.wlen
        ((selectRows st.picksId data).map
          (fun row => row.take (st.wlen - st.currentBufferLength)))) := by
    rw [assignColsMat_eq_ok _ _ _ _ (by rw [List.length_map, selectRows_length, hbuf.1])
      (fun p hp2 => by
        obtain ⟨hm1, hm2⟩ := List.of_mem_zip hp2
        simp only [List.mem_map] at hm2
        obtain ⟨row, hrow, hrs⟩ := hm2
        refine ⟨by omega, by rw [hbuf.2 _ hm1], ?_⟩
        rw [← hrs]
        simp only [List.length_take]
        rw [selectRows_mem_width hC _ hrow]; omega)]
    rfl
  have hfw : ∀ row ∈ fillMat st.epochBuffer st.currentBufferLength st.wlen
      ((selectRows st.picksId data).map
        (fun row => row.take (st.wlen - st.currentBufferLength))), row.length = st.wlen :=
    fillMat_width (by omega) le_rfl hbuf.2
      (fun sr hsr => by
        simp only [List.mem_map] at hsr
        obtain ⟨row, hrow, hrs⟩ := hsr
        rw [← hrs]
        simp only [List.length_take]
        rw [selectRows_mem_width hC _ hrow]; omega)
  have h2 := assignColsMat_seed hO hfw
  set seeded := seedMat (fillMat st.epochBuffer st.currentBufferLength st.wlen
    ((selectRows st.picksId data).map
      (fun row => row.take (st.wlen - st.currentBufferLength)))) st.wlen st.olen with hseed
  have hslen : seeded.length = st.picksId.length := by
    rw [hseed, seedMat_length, fillMat_length, List.length_map, selectRows_length, hbuf.1]
    simp
  have hsw : ∀ row ∈ seeded, row.length = st.wlen := seedMat_width hO hfw
  have hsellen : ((selectRows st.picksId data).map
      (fun row => row.drop (st.wlen - st.currentBufferLength))).length = st.picksId.length := by
    rw [List.length_map, selectRows_length]
  cases hse : seeded with
  | nil =>
    rw [hse] at hslen
    simp only [List.length_nil] at hslen
    omega
  | cons r rs =>
    cases hdr : (selectRows st.picksId data).map
        (fun row => row.drop (st.wlen - st.currentBufferLength)) with
    | nil =>
      rw [hdr] at hsellen
      simp only [List.length_nil] at hsellen
      omega
    | cons s0 ss =>
      have hr1 : r.length = st.wlen := hsw r (by rw [hse]; simp)
      have hs0 : s0.length = chunkWidth data - (st.wlen - st.currentBufferLength) := by
        have hmem : s0 ∈ (selectRows st.picksId data).map
            (fun row => row.drop (st.wlen - st.currentBufferLength)) := by rw [hdr]; simp
        simp only [List.mem_map] at hmem
        obtain ⟨row, hrow, hrs⟩ := hmem
        rw [← hrs]
        simp only [List.length_drop]
        rw [selectRows_mem_width hC _ hrow]
      have hfail : assignCols r st.olen
          (st.olen + (chunkWidth data - (st.wlen - st.currentBufferLength))) s0 =
          .error "ValueError: could not broadcast" := by
        refine assignCols_fail ?_
        rw [hr1, hs0]
        have hmina : min st.olen st.wlen = st.olen := min_eq_left hO
        have hminb : min (st.olen + (chunkWidth data - (st.wlen - st.currentBufferLength)))
            st.wlen = st.wlen := min_eq_right (by omega)
        rw [hmina, hminb]
        omega
      have holen : natInt (st.minSamplingRate * st.epochOverlap) = st.olen := rfl
      simp only [updateEpochBuffer, hW,
        if_neg (by omega : ¬ (st.currentBufferLength + chunkWidth data < st.wlen)),
        if_neg (by omega : ¬ (st.currentBufferLength + chunkWidth data = st.wlen)),
        h1, okBind, holen, ← hseed, h2, okBind, hse, hdr, assignColsMat_fail_head hfail, errBind]

theorem selWidths (st : EpochState) (data : List (List ℚ)) (hC : WFChunk st.picksId data)
    {a b : ℕ} (hba : b - a = chunkWidth data) :
    ∀ sr ∈ selectRows st.picksId data, sr.length = b - a := by
  intro sr hsr
  rw [selectRows_mem_width hC _ hsr, hba]

theorem updateEpochBuffer_ok_inv {st st2 : EpochState} {data : List (List ℚ)} {e : Bool}
    (hWF : WFEpoch st) (hC : WFChunk st.picksId data)
    (h : updateEpochBuffer st data = .ok (st2, e)) :
    st2.minSamplingRate = st.minSamplingRate ∧ st2.epochDuration = st.epochDuration ∧
    st2.epochOverlap = st.epochOverlap ∧ st2.picksId = st.picksId ∧
    WFEpoch st2 ∧ (e = true → matDims st2.currentEpoch st.picksId.length st.wlen) := by
  have hO : st.olen ≤ st.wlen := olen_le_wlen hWF
  obtain ⟨hr, ho, hod, hp, hbuf, hcur, hcb⟩ := hWF
  have hWFall : WFEpoch st := ⟨hr, ho, hod, hp, hbuf, hcur, hcb⟩
  rcases Nat.lt_trichotomy (st.currentBufferLength + chunkWidth data) st.wlen with hlt | heq | hgt
  · rw [update_case_under st data hWFall hC hlt] at h
    simp only [Except.ok.injEq, Prod.mk.injEq] at h
    obtain ⟨hst, he⟩ := h
    subst hst
    have hdims : matDims (fillMat st.epochBuffer st.currentBufferLength
        (st.currentBufferLength + chunkWidth data) (selectRows st.picksId data))
        st.picksId.length st.wlen := by
      constructor
      · rw [fillMat_length, selectRows_length, hbuf.1]; simp
      · exact fillMat_width (by omega) (by omega) hbuf.2 (selWidths st data hC (by omega))
    refine ⟨rfl, rfl, rfl, rfl, ⟨hr, ho, hod, hp, ?_, ?_, ?_⟩, ?_⟩
    · show matDims _ st.picksId.length st.wlen
      exact hdims
    · show matDims _ st.picksId.length st.wlen
      exact hcur
    · show st.currentBufferLength + chunkWidth data ≤ st.wlen
      omega
    · intro habs
      rw [← he] at habs
      exact absurd habs Bool.false_ne_true
  · rw [update_case_fill st data hWFall hC heq] at h
    simp only [Except.ok.injEq, Prod.mk.injEq] at h
    obtain ⟨hst, he⟩ := h
    subst hst
    have hfw : ∀ row ∈ fillMat st.epochBuffer st.currentBufferLength st.wlen
        (selectRows st.picksId data), row.length = st.wlen :=
      fillMat_width (by omega) le_rfl hbuf.2 (selWidths st data hC (by omega))
    have hflen : (fillMat st.epochBuffer st.currentBufferLength st.wlen
        (selectRows st.picksId data)).length = st.picksId.length := by
      rw [fillMat_length, selectRows_length, hbuf.1]; simp
    have hsdims : matDims (seedMat (fillMat st.epochBuffer st.currentBufferLength st.wlen
        (selectRows st.picksId data)) st.wlen st.olen) st.picksId.length st.wlen :=
      ⟨by rw [seedMat_length, hflen], seedMat_width hO hfw⟩
    refine ⟨rfl, rfl, rfl, rfl, ⟨hr, ho, hod, hp, ?_, ?_, ?_⟩, ?_⟩
    · show matDims _ st.picksId.length st.wlen
      exact hsdims
    · show matDims _ st.picksId.length st.wlen
      exact ⟨hflen, hfw⟩
    · show st.olen ≤ st.wlen
      exact hO
    · intro _
      exact ⟨hflen, hfw⟩
  · by_cases hov : st.olen + (chunkWidth data - (st.wlen - st.currentBufferLength)) ≤ st.wlen
    · rw [update_case_span st data hWFall hC hgt hov] at h
      simp only [Except.ok.injEq, Prod.mk.injEq] at h
      obtain ⟨hst, he⟩ := h
      subst hst
      have hfw : ∀ row ∈ fillMat st.epochBuffer st.currentBufferLength st.wlen
          ((selectRows st.picksId data).map
            (fun row => row.take (st.wlen - st.currentBufferLength))), row.length = st.wlen := by
        refine fillMat_width (by omega) le_rfl hbuf.2 ?_
        intro sr hsr
        simp only [List.mem_map] at hsr
        obtain ⟨row, hrow, hrs⟩ := hsr
        rw [← hrs]
        simp only [List.length_take]
        rw [selectRows_mem_width hC _ hrow]
        omega
      have hflen : (fillMat st.epochBuffer st.currentBufferLength st.wlen
          ((selectRows st.picksId data).map
            (fun row => row.take (st.wlen - st.currentBufferLength)))).length =
          st.picksId.length := by
        rw [fillMat_length, List.length_map, selectRows_length, hbuf.1]; simp
      have hsw := seedMat_width hO hfw
      have hslen : (seedMat (fillMat st.epochBuffer st.currentBufferLength st.wlen
          ((selectRows st.picksId data).map
            (fun row => row.take (st.wlen - st.currentBufferLength)))) st.wlen
          st.olen).length = st.picksId.length := by
        rw [seedMat_length, hflen]
      have hb2 : matDims (fillMat
          (seedMat (fillMat st.epochBuffer st.currentBufferLength st.wlen
            ((selectRows st.picksId data).map
              (fun row => row.take (st.wlen - st.currentBufferLength)))) st.wlen st.olen)
          st.olen (st.olen + (chunkWidth data - (st.wlen - st.currentBufferLength)))
          ((selectRows st.picksId data).map
            (fun row => row.drop (st.wlen - st.currentBufferLength))))
          st.picksId.length st.wlen := by
        constructor
        · rw [fillMat_length, hslen, List.length_map, selectRows_length]; simp
        · refine fillMat_width (by omega) hov hsw ?_
          intro sr hsr
          simp only [List.mem_map] at hsr
          obtain ⟨row, hrow, hrs⟩ := hsr
          rw [← hrs]
          simp only [List.length_drop]
          rw [selectRows_mem_width hC _ hrow]
          omega
      refine ⟨rfl, rfl, rfl, rfl, ⟨hr, ho, hod, hp, ?_, ?_, ?_⟩, ?_⟩
      · show matDims _ st.picksId.length st.wlen
        exact hb2
      · show matDims _ st.picksId.length st.wlen
        exact ⟨hflen, hfw⟩
      · show (chunkWidth data - (st.wlen - st.currentBufferLength)) + st.olen ≤ st.wlen
        omega
      · intro _
        exact ⟨hflen, hfw⟩
    · rw [update_case_span_fail st data hWFall hC hgt (by omega)] at h
      cases h

theorem EpochState.wlen_eq_of_fields {st2 st : EpochState}
    (h1 : st2.minSamplingRate = st.minSamplingRate) (h2 : st2.epochDuration = st.epochDuration) :
    st2.wlen = st.wlen := by
  unfold EpochState.wlen
  rw [h1, h2]

theorem runEpochUpdates_windows (chunks : List (List (List ℚ))) :
    ∀ st st2 ws, WFEpoch st → (∀ c ∈ chunks, WFChunk st.picksId c) →
    runEpochUpdates st chunks = .ok (st2, ws) →
    ∀ w ∈ ws, w.length = st.picksId.length ∧ ∀ row ∈ w, row.length = st.wlen := by
  induction chunks with
  | nil =>
    intro st st2 ws _ _ h w hw
    simp only [runEpochUpdates, Except.ok.injEq, Prod.mk.injEq] at h
    rw [← h.2] at hw
    simp at hw
  | cons c rest ih =>
    intro st st2 ws hWF hCs h
    simp only [runEpochUpdates] at h
    cases h1 : updateEpochBuffer st c with
    | error e => rw [h1] at h; cases h
    | ok r =>
      rw [h1, okBind] at h
      cases h2 : runEpochUpdates r.1 rest with
      | error e => rw [h2] at h; cases h
      | ok f =>
        rw [h2, okBind] at h
        simp only [Except.ok.injEq, Prod.mk.injEq] at h
        obtain ⟨hst2, hws⟩ := h
        obtain ⟨hm, hd, hoo, hpi, hWF1, hemit⟩ :=
          updateEpochBuffer_ok_inv hWF (hCs c (by simp))
            (show updateEpochBuffer st c = .ok (r.1, r.2) by rw [h1])
        have hwl : r.1.wlen = st.wlen := EpochState.wlen_eq_of_fields hm hd
        intro w hw
        rw [← hws] at hw
        rcases List.mem_append.mp hw with hw1 | hw2
        · rcases hr2 : r.2 with _ | _
          · rw [hr2] at hw1; simp at hw1
          · rw [hr2] at hw1
            simp only [if_true, List.mem_singleton] at hw1
            subst hw1
            exact (hemit hr2).imp (fun hl => hl) (fun hww => hww)
        · have := ih r.1 st2 f.2 hWF1 (fun cc hcc => by rw [hpi]; exact hCs cc (by simp [hcc]))
            (by rw [h2, ← hst2])
          obtain ⟨hl, hww⟩ := this w hw2
          rw [hpi] at hl
          rw [hwl] at hww
          exact ⟨hl, hww⟩

theorem natInt_eval {q : ℚ} {n : ℕ} (h : q = (n : ℚ)) : natInt q = n := by
  rw [h, natInt_cast]

theorem selectRows_map_cols {picksId : List ℕ} {data : List (List ℚ)}
    (f : List ℚ → List ℚ) (hin : ∀ i ∈ picksId, i < data.length) :
    selectRows picksId (data.map f) = (selectRows picksId data).map f := by
  simp only [selectRows, List.map_map]
  refine List.map_congr_left ?_
  intro i hi
  simp only [Function.comp_apply]
  rw [getD_map_lt f data i [] [] (hin i hi)]

/-! ## Claim theorems: epoch buffer -/

/-- **C1.** For every initialized epoch buffer with sampling rate `r`,
duration `d` and overlap `o` (`0 ≤ o < d`) and every sequence of update
calls, each emitted window has exactly `⌊r·d⌋` samples per picked channel;
and when an update exactly fills the buffer (`cursor + chunk = window
length`), the window is emitted, the cursor resets to `⌊r·o⌋`, and the
first `⌊r·o⌋` samples of the next buffer equal the trailing `⌊r·o⌋`
samples of the just-completed window. -/
theorem claim_c1_epoch_windows (st : EpochState) (hWF : WFEpoch st) :
    (∀ chunks st2 ws, (∀ c ∈ chunks, WFChunk st.picksId c) →
      runEpochUpdates st chunks = .ok (st2, ws) →
      ∀ w ∈ ws, w.length = st.picksId.length ∧ ∀ row ∈ w, row.length = st.wlen) ∧
    (∀ data st2 e, WFChunk st.picksId data →
      updateEpochBuffer st data = .ok (st2, e) →
      st.currentBufferLength + chunkWidth data = st.wlen →
      e = true ∧ st2.currentBufferLength = st.olen ∧
      ∀ i < st.picksId.length,
        (st2.epochBuffer.getD i []).take st.olen =
          (st2.currentEpoch.getD i []).drop (st.wlen - st.olen)) := by
  constructor
  · intro chunks st2 ws hCs h
    exact runEpochUpdates_windows chunks st st2 ws hWF hCs h
  · intro data st2 e hC hupd hfill
    have hO : st.olen ≤ st.wlen := olen_le_wlen hWF
    rw [update_case_fill st data hWF hC hfill] at hupd
    simp only [Except.ok.injEq, Prod.mk.injEq] at hupd
    obtain ⟨hst, he⟩ := hupd
    subst hst
    have hfw : ∀ row ∈ fillMat st.epochBuffer st.currentBufferLength st.wlen
        (selectRows st.picksId data), row.length = st.wlen :=
      fillMat_width (by omega) le_rfl hWF.2.2.2.2.1.2 (selWidths st data hC (by omega))
    have hflen : (fillMat st.epochBuffer st.currentBufferLength st.wlen
        (selectRows st.picksId data)).length = st.picksId.length := by
      rw [fillMat_length, selectRows_length, hWF.2.2.2.2.1.1]; simp
    refine ⟨he.symm, rfl, ?_⟩
    intro i hi
    exact seedMat_take hO hfw (by omega)

/-- Concrete initialized buffer for the C1 witness: rate 1, duration 2,
overlap 1 (window 2, overlap 1), one picked channel, cursor 0. -/
def exC1St : EpochState :=
  { minSamplingRate := 1, epochDuration := 2, epochOverlap := 1, picksId := [0],
    epochBuffer := [[0, 0]], currentEpoch := [[0, 0]], currentBufferLength := 0 }

/-- The state after feeding the exactly-filling chunk `[[5, 6]]`. -/
def exC1StB : EpochState :=
  { minSamplingRate := 1, epochDuration := 2, epochOverlap := 1, picksId := [0],
    epochBuffer := [[6, 6]], currentEpoch := [[5, 6]], currentBufferLength := 1 }

theorem exC1St_wlen : exC1St.wlen = 2 := natInt_eval (by norm_num [exC1St])

theorem exC1St_olen : exC1St.olen = 1 := natInt_eval (by norm_num [exC1St])

theorem exC1St_wf : WFEpoch exC1St := by
  refine ⟨by norm_num [exC1St], by norm_num [exC1St], by norm_num [exC1St],
    by simp [exC1St], ⟨rfl, ?_⟩, ⟨rfl, ?_⟩, ?_⟩
  · intro row hrow
    rw [exC1St_wlen]
    simp only [exC1St, List.mem_singleton] at hrow
    rw [hrow]
    rfl
  · intro row hrow
    rw [exC1St_wlen]
    simp only [exC1St, List.mem_singleton] at hrow
    rw [hrow]
    rfl
  · rw [exC1St_wlen]
    simp [exC1St]

theorem exC1_chunk : WFChunk exC1St.picksId [[(5 : ℚ), 6]] := by
  constructor
  · intro row hrow
    simp only [List.mem_singleton] at hrow
    rw [hrow]
    rfl
  · intro i hi
    simp only [exC1St, List.mem_singleton] at hi
    simp [hi]

theorem exC1_update : updateEpochBuffer exC1St [[(5 : ℚ), 6]] = .ok (exC1StB, true) := by
  rw [update_case_fill exC1St [[(5 : ℚ), 6]] exC1St_wf exC1_chunk
    (by rw [exC1St_wlen]; rfl)]
  rw [exC1St_wlen, exC1St_olen]
  rfl

theorem claim_c1_epoch_windows_witness :
    WFEpoch exC1St ∧
    (true = true ∧ exC1StB.currentBufferLength = exC1St.olen ∧
      ∀ i < exC1St.picksId.length,
        (exC1StB.epochBuffer.getD i []).take exC1St.olen =
          (exC1StB.currentEpoch.getD i []).drop (exC1St.wlen - exC1St.olen)) :=
  ⟨exC1St_wf, (claim_c1_epoch_windows exC1St exC1St_wf).2 [[(5 : ℚ), 6]] exC1StB true
    exC1_chunk exC1_update (by rw [exC1St_wlen]; rfl)⟩

/-- **C2 (amended).** A chunk spanning the window boundary, with the
overflow strictly smaller than `window length − overlap length`, behaves
exactly like the same samples split at the boundary into two chunks: same
completed window, same following buffer state.  (The amendment excludes
the boundary case where the overflow exactly completes the next window:
there the split run emits that second window and reseeds while the single
call does not — see the counterexample.) -/
theorem claim_c2_boundary_split (st : EpochState) (data : List (List ℚ))
    (hWF : WFEpoch st) (hC : WFChunk st.picksId data)
    (hgt : st.wlen < st.currentBufferLength + chunkWidth data)
    (hov : st.olen + (chunkWidth data - (st.wlen - st.currentBufferLength)) < st.wlen) :
    ∃ st1 stA st2,
      updateEpochBuffer st data = .ok (st1, true) ∧
      updateEpochBuffer st
        (data.map (fun row => row.take (st.wlen - st.currentBufferLength))) =
        .ok (stA, true) ∧
      updateEpochBuffer stA
        (data.map (fun row => row.drop (st.wlen - st.currentBufferLength))) =
        .ok (st2, false) ∧
      st1 = st2 ∧ st1.currentEpoch = stA.currentEpoch := by
  have hO : st.olen ≤ st.wlen := olen_le_wlen hWF
  have hp : 0 < st.picksId.length := hWF.2.2.2.1
  have hcb : st.currentBufferLength ≤ st.wlen := hWF.2.2.2.2.2.2
  have hdlen : 0 < data.length := by
    cases hpick : st.picksId with
    | nil => rw [hpick] at hp; simp at hp
    | cons i is => exact Nat.lt_of_le_of_lt (Nat.zero_le i) (hC.2 i (by rw [hpick]; simp))
  have hwidth0 : ∀ row ∈ data, row.length = chunkWidth data := hC.1
  have hcwA : chunkWidth (data.map (fun row => row.take (st.wlen - st.currentBufferLength))) =
      st.wlen - st.currentBufferLength := by
    cases data with
    | nil => simp at hdlen
    | cons d0 ds =>
      simp only [chunkWidth, List.map_cons, List.headD_cons, List.length_take]
      simp only [chunkWidth, List.headD_cons] at hgt
      omega
  have hcwB : chunkWidth (data.map (fun row => row.drop (st.wlen - st.currentBufferLength))) =
      chunkWidth data - (st.wlen - st.currentBufferLength) := by
    cases data with
    | nil => simp at hdlen
    | cons d0 ds =>
      simp only [chunkWidth, List.map_cons, List.headD_cons, List.length_drop]
  have hCA : WFChunk st.picksId
      (data.map (fun row => row.take (st.wlen - st.currentBufferLength))) := by
    constructor
    · intro row hrow
      simp only [List.mem_map] at hrow
      obtain ⟨r0, hr0, rfl⟩ := hrow
      rw [hcwA]
      simp only [List.length_take]
      rw [hwidth0 r0 hr0]
      omega
    · intro i hi
      rw [List.length_map]
      exact hC.2 i hi
  have hCB : WFChunk st.picksId
      (data.map (fun row => row.drop (st.wlen - st.currentBufferLength))) := by
    constructor
    · intro row hrow
      simp only [List.mem_map] at hrow
      obtain ⟨r0, hr0, rfl⟩ := hrow
      rw [hcwB]
      simp only [List.length_drop]
      rw [hwidth0 r0 hr0]
    · intro i hi
      rw [List.length_map]
      exact hC.2 i hi
  have h1 := update_case_span st data hWF hC hgt (by omega)
  have hfillA : st.currentBufferLength + chunkWidth
      (data.map (fun row => row.take (st.wlen - st.currentBufferLength))) = st.wlen := by
    rw [hcwA]; omega
  have h2 := update_case_fill st _ hWF hCA hfillA
  have hselA : selectRows st.picksId
      (data.map (fun row => row.take (st.wlen - st.currentBufferLength))) =
      (selectRows st.picksId data).map
        (fun row => row.take (st.wlen - st.currentBufferLength)) :=
    selectRows_map_cols _ hC.2
  have hselB : selectRows st.picksId
      (data.map (fun row => row.drop (st.wlen - st.currentBufferLength))) =
      (selectRows st.picksId data).map
        (fun row => row.drop (st.wlen - st.currentBufferLength)) :=
    selectRows_map_cols _ hC.2
  rw [hselA] at h2
  obtain ⟨hmA, hdA, hoA, hpA, hWFA, -⟩ := updateEpochBuffer_ok_inv hWF hCA h2
  have h3c : updateEpochBuffer
      ({ st with
        epochBuffer := seedMat (fillMat st.epochBuffer st.currentBufferLength st.wlen
          ((selectRows st.picksId data).map
            (fun row => row.take (st.wlen - st.currentBufferLength)))) st.wlen st.olen,
        currentEpoch := fillMat st.epochBuffer st.currentBufferLength st.wlen
          ((selectRows st.picksId data).map
            (fun row => row.take (st.wlen - st.currentBufferLength))),
        currentBufferLength := st.olen } : EpochState)
      (data.map (fun row => row.drop (st.wlen - st.currentBufferLength))) =
      .ok ({ st with
        epochBuffer := fillMat
          (seedMat (fillMat st.epochBuffer st.currentBufferLength st.wlen
            ((selectRows st.picksId data).map
              (fun row => row.take (st.wlen - st.currentBufferLength)))) st.wlen st.olen)
          st.olen
          (st.olen + chunkWidth (data.map
            (fun row => row.drop (st.wlen - st.currentBufferLength))))
          (selectRows st.picksId (data.map
            (fun row => row.drop (st.wlen - st.currentBufferLength)))),
        currentEpoch := fillMat st.epochBuffer st.currentBufferLength st.wlen
          ((selectRows st.picksId data).map
            (fun row => row.take (st.wlen - st.currentBufferLength))),
        currentBufferLength := st.olen + chunkWidth (data.map
          (fun row => row.drop (st.wlen - st.currentBufferLength))) }, false) :=
    update_case_under _
      (data.map (fun row => row.drop (st.wlen - st.currentBufferLength))) hWFA hCB
      (show st.olen + chunkWidth (data.map
          (fun row => row.drop (st.wlen - st.currentBufferLength))) < st.wlen by
        rw [hcwB]; omega)
  refine ⟨{ st with
      epochBuffer := fillMat
        (seedMat (fillMat st.epochBuffer st.currentBufferLength st.wlen
          ((selectRows st.picksId data).map
            (fun row => row.take (st.wlen - st.currentBufferLength)))) st.wlen st.olen)
        st.olen
        (st.olen + (chunkWidth data - (st.wlen - st.currentBufferLength)))
        ((selectRows st.picksId data).map
          (fun row => row.drop (st.wlen - st.currentBufferLength))),
      currentEpoch := fillMat st.epochBuffer st.currentBufferLength st.wlen
        ((selectRows st.picksId data).map
          (fun row => row.take (st.wlen - st.currentBufferLength))),
      currentBufferLength := (chunkWidth data - (st.wlen - st.currentBufferLength)) + st.olen },
    { st with
      epochBuffer := seedMat (fillMat st.epochBuffer st.currentBufferLength st.wlen
        ((selectRows st.picksId data).map
          (fun row => row.take (st.wlen - st.currentBufferLength)))) st.wlen st.olen,
      currentEpoch := fillMat st.epochBuffer st.currentBufferLength st.wlen
        ((selectRows st.picksId data).map
          (fun row => row.take (st.wlen - st.currentBufferLength))),
      currentBufferLength := st.olen },
    { st with
      epochBuffer := fillMat
        (seedMat (fillMat st.epochBuffer st.currentBufferLength st.wlen
          ((selectRows st.picksId data).map
            (fun row => row.take (st.wlen - st.currentBufferLength)))) st.wlen st.olen)
        st.olen
        (st.olen + chunkWidth (data.map
          (fun row => row.drop (st.wlen - st.currentBufferLength))))
        (selectRows st.picksId (data.map
          (fun row => row.drop (st.wlen - st.currentBufferLength)))),
      currentEpoch := fillMat st.epochBuffer st.currentBufferLength st.wlen
        ((selectRows st.picksId data).map
          (fun row => row.take (st.wlen - st.currentBufferLength))),
      currentBufferLength := st.olen + chunkWidth (data.map
        (fun row => row.drop (st.wlen - st.currentBufferLength))) },
    h1, h2, h3c, ?_, rfl⟩
  rw [hselB, hcwB]
  simp only [EpochState.mk.injEq, true_and, and_true]
  omega

/-- Concrete buffer for the C2 witness and counterexample: rate 1, duration
4, overlap 1 (window 4, overlap 1), one picked channel, cursor 2. -/
def exC2St : EpochState :=
  { minSamplingRate := 1, epochDuration := 4, epochOverlap := 1, picksId := [0],
    epochBuffer := [[0, 0, 0, 0]], currentEpoch := [[0, 0, 0, 0]], currentBufferLength := 2 }

theorem exC2St_wlen : exC2St.wlen = 4 := natInt_eval (by norm_num [exC2St])

theorem exC2St_olen : exC2St.olen = 1 := natInt_eval (by norm_num [exC2St])

theorem exC2St_wf : WFEpoch exC2St := by
  refine ⟨by norm_num [exC2St], by norm_num [exC2St], by norm_num [exC2St],
    by simp [exC2St], ⟨rfl, ?_⟩, ⟨rfl, ?_⟩, ?_⟩
  · intro row hrow
    rw [exC2St_wlen]
    simp only [exC2St, List.mem_singleton] at hrow
    rw [hrow]
    rfl
  · intro row hrow
    rw [exC2St_wlen]
    simp only [exC2St, List.mem_singleton] at hrow
    rw [hrow]
    rfl
  · rw [exC2St_wlen]
    simp [exC2St]

theorem exC2_chunk (row : List ℚ) : WFChunk exC2St.picksId [row] := by
  constructor
  · intro r hr
    simp only [List.mem_singleton] at hr
    rw [hr]
    rfl
  · intro i hi
    simp only [exC2St, List.mem_singleton] at hi
    simp [hi]

theorem claim_c2_boundary_split_witness :
    (exC2St.wlen < exC2St.currentBufferLength + chunkWidth [[(1 : ℚ), 2, 3]]) ∧
    (∃ st1 stA st2,
      updateEpochBuffer exC2St [[(1 : ℚ), 2, 3]] = .ok (st1, true) ∧
      updateEpochBuffer exC2St
        ([[(1 : ℚ), 2, 3]].map
          (fun row => row.take (exC2St.wlen - exC2St.currentBufferLength))) =
        .ok (stA, true) ∧
      updateEpochBuffer stA
        ([[(1 : ℚ), 2, 3]].map
          (fun row => row.drop (exC2St.wlen - exC2St.currentBufferLength))) =
        .ok (st2, false) ∧
      st1 = st2 ∧ st1.currentEpoch = stA.currentEpoch) :=
  ⟨by rw [exC2St_wlen]; decide,
   claim_c2_boundary_split exC2St [[(1 : ℚ), 2, 3]] exC2St_wf (exC2_chunk _)
     (by rw [exC2St_wlen]; decide)
     (by rw [exC2St_wlen, exC2St_olen]; decide)⟩

/-- One-shot result at the boundary case (overflow exactly completes the
next window): cursor ends at 4 with the second window full but unemitted. -/
def exC2CexOne : EpochState :=
  { minSamplingRate := 1, epochDuration := 4, epochOverlap := 1, picksId := [0],
    epochBuffer := [[2, 3, 4, 5]], currentEpoch := [[0, 0, 1, 2]], currentBufferLength := 4 }

/-- Split-run intermediate state after the boundary-aligned first chunk. -/
def exC2CexA : EpochState :=
  { minSamplingRate := 1, epochDuration := 4, epochOverlap := 1, picksId := [0],
    epochBuffer := [[2, 0, 1, 2]], currentEpoch := [[0, 0, 1, 2]], currentBufferLength := 1 }

/-- Split-run final state: the second window was emitted and reseeded. -/
def exC2CexB : EpochState :=
  { minSamplingRate := 1, epochDuration := 4, epochOverlap := 1, picksId := [0],
    epochBuffer := [[5, 3, 4, 5]], currentEpoch := [[2, 3, 4, 5]], currentBufferLength := 1 }

theorem exC2CexA_wf : WFEpoch exC2CexA := by
  refine ⟨by norm_num [exC2CexA], by norm_num [exC2CexA], by norm_num [exC2CexA],
    by simp [exC2CexA], ⟨rfl, ?_⟩, ⟨rfl, ?_⟩, ?_⟩
  · intro row hrow
    show row.length = exC2St.wlen
    rw [exC2St_wlen]
    simp only [exC2CexA, List.mem_singleton] at hrow
    rw [hrow]
    rfl
  · intro row hrow
    show row.length = exC2St.wlen
    rw [exC2St_wlen]
    simp only [exC2CexA, List.mem_singleton] at hrow
    rw [hrow]
    rfl
  · show exC2CexA.currentBufferLength ≤ exC2St.wlen
    rw [exC2St_wlen]
    simp [exC2CexA]

theorem exC2CexA_chunk (row : List ℚ) : WFChunk exC2CexA.picksId [row] := by
  constructor
  · intro r hr
    simp only [List.mem_singleton] at hr
    rw [hr]
    rfl
  · intro i hi
    simp only [exC2CexA, List.mem_singleton] at hi
    simp [hi]

/-- **C2 counterexample.** With window 4, overlap 1 and cursor 2, the chunk
`[1,2,3,4,5]` spans the boundary with overflow 3 = window − overlap, which
still fits in the next window.  The single call leaves cursor 4 with the
first window as `current_epoch`; splitting the same samples at the
boundary (`[1,2]` then `[3,4,5]`) emits a second window and leaves cursor
1 with the second window as `current_epoch` — so the claimed equivalence
fails. -/
theorem claim_c2_counterexample :
    updateEpochBuffer exC2St [[(1 : ℚ), 2, 3, 4, 5]] = .ok (exC2CexOne, true) ∧
    updateEpochBuffer exC2St [[(1 : ℚ), 2]] = .ok (exC2CexA, true) ∧
    updateEpochBuffer exC2CexA [[(3 : ℚ), 4, 5]] = .ok (exC2CexB, true) ∧
    exC2CexOne ≠ exC2CexB ∧ exC2CexOne.currentEpoch ≠ exC2CexB.currentEpoch := by
  refine ⟨?_, ?_, ?_, ?_, ?_⟩
  · rw [update_case_span exC2St [[(1 : ℚ), 2, 3, 4, 5]] exC2St_wf (exC2_chunk _)
      (by rw [exC2St_wlen]; decide) (by rw [exC2St_wlen, exC2St_olen]; decide)]
    rw [exC2St_wlen, exC2St_olen]
    rfl
  · rw [update_case_fill exC2St [[(1 : ℚ), 2]] exC2St_wf (exC2_chunk _)
      (by rw [exC2St_wlen]; rfl)]
    rw [exC2St_wlen, exC2St_olen]
    rfl
  · rw [update_case_fill exC2CexA [[(3 : ℚ), 4, 5]] exC2CexA_wf (exC2CexA_chunk _)
      (by show exC2CexA.currentBufferLength + _ = exC2St.wlen; rw [exC2St_wlen]; rfl)]
    rw [show exC2CexA.wlen = 4 from natInt_eval (by norm_num [exC2CexA]),
      show exC2CexA.olen = 1 from natInt_eval (by norm_num [exC2CexA])]
    rfl
  · intro h
    have h7 : exC2CexOne.currentBufferLength = exC2CexB.currentBufferLength := by rw [h]
    rw [exC2CexOne, exC2CexB] at h7
    exact absurd h7 (by decide)
  · intro h
    have h0 : ((exC2CexOne.currentEpoch.headD []).headD 0) =
        ((exC2CexB.currentEpoch.headD []).headD 0) := by rw [h]
    simp only [exC2CexOne, exC2CexB, List.headD_cons] at h0
    norm_num at h0

/-- **C5 (amended).** `MicromedBuffer.__init__` performs no validation at
all: for every epoch duration and overlap — including overlap ≥ duration
and non-positive durations — construction succeeds, merely storing the
arguments with an unallocated buffer and cursor 0. -/
theorem claim_c5_no_construction_validation (epochDuration epochOverlap : ℚ)
    (picks : Option (List String)) :
    micromedBufferInit epochDuration epochOverlap picks =
      .ok { picks := picks, epochDuration := epochDuration, epochOverlap := epochOverlap,
            epochBufferNone := true, currentEpochNone := true,
            currentBufferLength := 0 } := rfl

/-- **C5 counterexample.** Constructing the buffer with
`epoch_duration = 1` and `epoch_overlap = 2` (overlap ≥ duration) succeeds
instead of failing at construction time. -/
theorem claim_c5_counterexample :
    (micromedBufferInit 1 2 none).isOk = true ∧ (1 : ℚ) ≤ 2 :=
  ⟨rfl, by norm_num⟩

/-! ## Helper lemmas: sample decoder -/

theorem mapE_eq_ok_map {ε α β : Type} (g : α → Except ε β) (f : α → β) :
    ∀ l : List α, (∀ a ∈ l, g a = .ok (f a)) → mapE g l = .ok (l.map f)
  | [], _ => rfl
  | a :: as, h => by
    rw [mapE_cons, h a (by simp), okBind,
      mapE_eq_ok_map g f as (fun x hx => h x (by simp [hx])), okBind, List.map_cons]

theorem mapE_congr {ε α β : Type} {g1 g2 : α → Except ε β} :
    ∀ l : List α, (∀ a ∈ l, g1 a = g2 a) → mapE g1 l = mapE g2 l
  | [], _ => rfl
  | a :: as, h => by
    rw [mapE_cons, mapE_cons, h a (by simp), mapE_congr as (fun x hx => h x (by simp [hx]))]

theorem getD_range {n i : ℕ} (h : i < n) : (List.range n).getD i 0 = i := by
  rw [List.getD_eq_getD_get?, List.get?_range h]
  rfl

/-- The calibrated value of stored channel `i`, sample `j`, for element
values `raws` (the formula of in_out.py lines 246-254). -/
def calibValue (hdr : MicromedHdr) (raws : List ℤ) (fac : ℚ) (i j : ℕ) : ℚ :=
  ((raws.getD (j * hdr.nbOfChannels + i) 0 : ℚ) -
    ((hdr.elecRefs.getD i defaultElecRef).logicGround : ℚ)) * fac

theorem decodeRow_eq {hdr : MicromedHdr} {raws : List ℤ} {ns : ℕ} {useVolt : Bool}
    {i : ℕ} {fac : ℚ}
    (hi : i < hdr.elecRefs.length)
    (hfac : channelFactor (hdr.elecRefs.getD i defaultElecRef) useVolt = .ok fac)
    (hbound : ∀ j, j < ns → j * hdr.nbOfChannels + i < raws.length) :
    decodeRow hdr raws ns false useVolt i =
      .ok ((List.range ns).map (fun j => calibValue hdr raws fac i j)) := by
  unfold decodeRow
  rw [if_neg (by simp), if_pos hi, okBind, hfac, okBind]
  refine mapE_eq_ok_map _ _ _ ?_
  intro j hj
  rw [List.mem_range] at hj
  rw [show npTake raws (j * hdr.nbOfChannels + i) =
      .ok (raws.getD (j * hdr.nbOfChannels + i) 0) from by
    unfold npTake
    rw [if_pos (hbound j hj)], okBind]
  rfl

theorem decodeRow_unconv {hdr : MicromedHdr} {raws : List ℤ} {ns : ℕ} {i : ℕ}
    (hi : i < hdr.elecRefs.length)
    (hnone : unitToVolt ((hdr.elecRefs.getD i defaultElecRef).units) = none) :
    decodeRow hdr raws ns false true i =
      .error (.unconvertibleUnit ((hdr.elecRefs.getD i defaultElecRef).units)) := by
  unfold decodeRow
  rw [if_neg (by simp), if_pos hi, okBind]
  unfold channelFactor
  rw [if_pos rfl, hnone]
  rfl

/-- Whether a decode call failed with the `UnconvertibleUnit` error. -/
def isUnconvertibleUnitError {α : Type} : Except DecodeErr α → Bool
  | .error (.unconvertibleUnit _) => true
  | _ => false

theorem mapE_first_err {ε α β : Type} (g : α → Except ε β) (P : ε → Prop) :
    ∀ l : List α,
    (∀ a ∈ l, (∃ b, g a = .ok b) ∨ (∃ e, g a = .error e ∧ P e)) →
    (∃ a ∈ l, ∀ b, g a ≠ .ok b) →
    ∃ e, mapE g l = .error e ∧ P e := by
  intro l
  induction l with
  | nil =>
    intro _ hex
    obtain ⟨a, ha, -⟩ := hex
    simp at ha
  | cons a as ih =>
    intro hall hex
    rcases hall a (by simp) with ⟨b, hb⟩ | ⟨e, he, hPe⟩
    · obtain ⟨e, hrec, hPe⟩ := ih (fun x hx => hall x (by simp [hx]))
        (by
          obtain ⟨x, hx, hxe⟩ := hex
          rcases List.mem_cons.mp hx with rfl | hxs
          · exact absurd hb (hxe b)
          · exact ⟨x, hxs, hxe⟩)
      refine ⟨e, ?_, hPe⟩
      rw [mapE_cons, hb, okBind, hrec]
      rfl
    · refine ⟨e, ?_, hPe⟩
      rw [mapE_cons, he]
      rfl

theorem frombufferU16_ok {packet : List ℕ} (hmod : packet.length % 2 = 0) :
    frombufferU16 packet =
      .ok ((List.range (packet.length / 2)).map (fun k => (u16 packet (2 * k) : ℤ))) := by
  unfold frombufferU16
  rw [if_pos hmod]

theorem frombufferI32_ok {packet : List ℕ} (hmod : packet.length % 4 = 0) :
    frombufferI32 packet =
      .ok ((List.range (packet.length / 4)).map (fun k => i32 packet (4 * k))) := by
  unfold frombufferI32
  rw [if_pos hmod]

theorem reduceOption_map_some {α β : Type} (f : α → β) :
    ∀ l : List α, (l.map (fun x => some (f x))).reduceOption = l.map f
  | [] => rfl
  | a :: as => by
    simp only [List.map_cons, List.reduceOption_cons_of_some,
      reduceOption_map_some f as]

/-- Closed form of `decode_data_eeg_packet` for `picks=None`,
`keep_raw=False`, `check_data=False`, when the packet length is a multiple
of the element size and every selected channel factor is computable. -/
theorem decode_closed (hdr : MicromedHdr) (packet : List ℕ) (useVolt useI32 : Bool)
    (raws : List ℤ) (fac : ℕ → ℚ)
    (hch : hdr.chNames.length = hdr.nbOfChannels)
    (her : hdr.elecRefs.length = hdr.nbOfChannels)
    (hpos : 0 < hdr.nbOfChannels)
    (hsel : (hdr.nbOfBytes = 1 ∨ hdr.nbOfBytes = 2) ∧ useI32 = false ∨
      hdr.nbOfBytes = 4 ∧ useI32 = true)
    (hraws : (if useI32 then frombufferI32 packet else frombufferU16 packet) = .ok raws)
    (hrlen : packet.length / hdr.nbOfBytes ≤ raws.length)
    (hconv : ∀ i, i < hdr.nbOfChannels →
      channelFactor (hdr.elecRefs.getD i defaultElecRef) useVolt = .ok (fac i)) :
    decodeDataEegPacket hdr packet none false useVolt false =
      .ok ((List.range hdr.nbOfChannels).map (fun i =>
        (List.range (packet.length / hdr.nbOfBytes / hdr.nbOfChannels)).map
          (fun j => calibValue hdr raws (fac i) i j)), hdr.chNames, true) := by
  have hbound : ∀ i < hdr.nbOfChannels,
      ∀ j < packet.length / hdr.nbOfBytes / hdr.nbOfChannels,
      j * hdr.nbOfChannels + i < raws.length := by
    intro i hi j hj
    have h1 : (j + 1) * hdr.nbOfChannels ≤
        (packet.length / hdr.nbOfBytes / hdr.nbOfChannels) * hdr.nbOfChannels :=
      Nat.mul_le_mul_right _ hj
    have h2 : (packet.length / hdr.nbOfBytes / hdr.nbOfChannels) * hdr.nbOfChannels ≤
        packet.length / hdr.nbOfBytes := Nat.div_mul_le_self _ _
    have h3 : j * hdr.nbOfChannels + i < (j + 1) * hdr.nbOfChannels := by
      simp only [Nat.add_mul, Nat.one_mul]
      omega
    omega
  have hrows : mapE (fun i =>
      if i < hdr.chNames.length then
        if hdr.chNames.contains (hdr.chNames.getD i "") = true then
          decodeRow hdr raws (packet.length / hdr.nbOfBytes / hdr.nbOfChannels)
              false useVolt i >>=
            (fun r => Except.ok (some r))
        else Except.ok none
      else Except.error DecodeErr.indexOut) (List.range hdr.nbOfChannels) =
      .ok ((List.range hdr.nbOfChannels).map (fun i => some
        ((List.range (packet.length / hdr.nbOfBytes / hdr.nbOfChannels)).map
          (fun j => calibValue hdr raws (fac i) i j)))) := by
    refine mapE_eq_ok_map _ _ _ ?_
    intro i hi
    rw [List.mem_range] at hi
    rw [if_pos (by omega)]
    rw [if_pos (List.elem_eq_true_of_mem (getD_mem _ _ _ (by omega)))]
    rw [decodeRow_eq (by omega) (hconv i hi) (fun j hj => hbound i hi j hj), okBind]
  rcases hsel with ⟨hnb, rfl⟩ | ⟨hnb, rfl⟩
  · simp only [Bool.false_eq_true, if_false] at hraws
    simp only [decodeDataEegPacket, Option.getD_none, Bool.false_eq_true, if_false]
    rw [if_pos hnb, okBind]
    simp only [Bool.false_eq_true, if_false]
    rw [hraws, okBind, if_neg (by omega : ¬ hdr.nbOfChannels = 0), okBind, hrows,
      okBind, reduceOption_map_some]
  · simp only [eq_self_iff_true, if_true] at hraws
    simp only [decodeDataEegPacket, Option.getD_none, Bool.false_eq_true, if_false]
    rw [if_neg (by rw [hnb]; decide), if_pos hnb, okBind]
    simp only [eq_self_iff_true, if_true]
    rw [hraws, okBind, if_neg (by omega : ¬ hdr.nbOfChannels = 0), okBind, hrows,
      okBind, reduceOption_map_some]

theorem exceptMap_bind {ε α β γ : Type} (x : Except ε α) (f : α → Except ε β) (g : β → γ) :
    (x >>= f).map g = x >>= (fun a => (f a).map g) := by
  cases x <;> rfl

theorem exceptMap_ok {ε α β : Type} (a : α) (g : α → β) :
    (Except.ok a : Except ε α).map g = .ok (g a) := rfl

theorem exceptMap_err {ε α β : Type} (e : ε) (g : α → β) :
    (Except.error e : Except ε α).map g = .error e := rfl

/-- Value of a matrix entry of the `decode_closed` output. -/
theorem closed_entry (hdr : MicromedHdr) (raws : List ℤ) (fac : ℕ → ℚ) {i j ns : ℕ}
    (hi : i < hdr.nbOfChannels) (hj : j < ns) :
    ((((List.range hdr.nbOfChannels).map (fun i2 =>
        (List.range ns).map (fun j2 => calibValue hdr raws (fac i2) i2 j2))).getD i []).getD
      j 0) = calibValue hdr raws (fac i) i j := by
  rw [getD_map_lt _ _ _ _ 0 (by simpa using hi), getD_range hi,
    getD_map_lt _ _ _ _ 0 (by simpa using hj), getD_range hj]

theorem u16raws_getD {packet : List ℕ} {idx : ℕ} (h : idx < packet.length / 2) :
    (((List.range (packet.length / 2)).map
      (fun k => (u16 packet (2 * k) : ℤ))).getD idx 0) = (u16 packet (2 * idx) : ℤ) := by
  rw [getD_map_lt _ _ _ _ 0 (by simpa using h), getD_range h]

/-- **C3.** With `keep_raw=False` and `use_volt=False`, every decoded
sample equals `(raw_code − logical_ground) · scale_factor`, where the
scale factor is `(phy_max − phy_min) / (logic_max − logic_min + 1)` as
computed by `_read_labcod` (`labcodFactor`). -/
theorem claim_c3_calibration_formula (hdr : MicromedHdr) (packet : List ℕ) (i j : ℕ)
    (lMin lMax phMin phMax lg : ℤ) (u : String)
    (hch : hdr.chNames.length = hdr.nbOfChannels)
    (her : hdr.elecRefs.length = hdr.nbOfChannels)
    (hpos : 0 < hdr.nbOfChannels)
    (hnb : hdr.nbOfBytes = 2)
    (hmod : packet.length % 2 = 0)
    (hi : i < hdr.nbOfChannels)
    (hj : j < packet.length / 2 / hdr.nbOfChannels)
    (href : hdr.elecRefs.getD i defaultElecRef =
      { factor := labcodFactor lMin lMax phMin phMax, logicGround := lg, units := u }) :
    ∃ M, decodeDataEegPacket hdr packet none false false false = .ok (M, hdr.chNames, true) ∧
      (M.getD i []).getD j 0 =
        ((u16 packet (2 * (j * hdr.nbOfChannels + i)) : ℚ) - (lg : ℚ)) *
          labcodFactor lMin lMax phMin phMax := by
  have hclosed := decode_closed hdr packet false false
    ((List.range (packet.length / 2)).map (fun k => (u16 packet (2 * k) : ℤ)))
    (fun k => (hdr.elecRefs.getD k defaultElecRef).factor)
    hch her hpos (Or.inl ⟨Or.inr hnb, rfl⟩)
    (by
      simp only [Bool.false_eq_true, if_false]
      exact frombufferU16_ok hmod)
    (by rw [hnb]; simp)
    (fun k _ => rfl)
  rw [hnb] at hclosed
  refine ⟨_, hclosed, ?_⟩
  · rw [closed_entry hdr _ _ hi hj, calibValue, href]
    have hidx : j * hdr.nbOfChannels + i < packet.length / 2 := by
      have h1 : (j + 1) * hdr.nbOfChannels ≤
          (packet.length / 2 / hdr.nbOfChannels) * hdr.nbOfChannels :=
        Nat.mul_le_mul_right _ hj
      have h2 : (packet.length / 2 / hdr.nbOfChannels) * hdr.nbOfChannels ≤
          packet.length / 2 := Nat.div_mul_le_self _ _
      have h3 : j * hdr.nbOfChannels + i < (j + 1) * hdr.nbOfChannels := by
        simp only [Nat.add_mul, Nat.one_mul]
        omega
      omega
    rw [u16raws_getD hidx]
    push_cast
    ring

/-- The two decodes of the volt-scaling pair, in closed form. -/
theorem decode_volt_pair (hdr : MicromedHdr) (packet : List ℕ)
    (hch : hdr.chNames.length = hdr.nbOfChannels)
    (her : hdr.elecRefs.length = hdr.nbOfChannels)
    (hpos : 0 < hdr.nbOfChannels)
    (hnb : hdr.nbOfBytes = 2)
    (hmod : packet.length % 2 = 0)
    (hall : ∀ i, i < hdr.nbOfChannels →
      (unitToVolt ((hdr.elecRefs.getD i defaultElecRef).units)).isSome = true) :
    ∃ M M1,
      decodeDataEegPacket hdr packet none false false false = .ok (M, hdr.chNames, true) ∧
      decodeDataEegPacket hdr packet none false true false = .ok (M1, hdr.chNames, true) ∧
      ∀ i, i < hdr.nbOfChannels →
        ∀ j, j < packet.length / 2 / hdr.nbOfChannels →
        (M1.getD i []).getD j 0 =
          ((unitToVolt ((hdr.elecRefs.getD i defaultElecRef).units)).getD 0) *
            ((M.getD i []).getD j 0) := by
  have hraws : (if (false : Bool) then frombufferI32 packet else frombufferU16 packet) =
      .ok ((List.range (packet.length / 2)).map (fun k => (u16 packet (2 * k) : ℤ))) := by
    simp only [Bool.false_eq_true, if_false]
    exact frombufferU16_ok hmod
  have hclosed0 := decode_closed hdr packet false false
    ((List.range (packet.length / 2)).map (fun k => (u16 packet (2 * k) : ℤ)))
    (fun k => (hdr.elecRefs.getD k defaultElecRef).factor)
    hch her hpos (Or.inl ⟨Or.inr hnb, rfl⟩) hraws (by rw [hnb]; simp)
    (fun k _ => rfl)
  have hclosed1 := decode_closed hdr packet true false
    ((List.range (packet.length / 2)).map (fun k => (u16 packet (2 * k) : ℤ)))
    (fun k => (hdr.elecRefs.getD k defaultElecRef).factor *
      ((unitToVolt ((hdr.elecRefs.getD k defaultElecRef).units)).getD 0))
    hch her hpos (Or.inl ⟨Or.inr hnb, rfl⟩) hraws (by rw [hnb]; simp)
    (fun k hk => by
      obtain ⟨r, hr⟩ := Option.isSome_iff_exists.mp (hall k hk)
      unfold channelFactor
      rw [if_pos rfl]
      simp only [hr, Option.getD_some])
  rw [hnb] at hclosed0 hclosed1
  refine ⟨_, _, hclosed0, hclosed1, ?_⟩
  intro i hi j hj
  rw [closed_entry hdr _ _ hi hj, closed_entry hdr _ _ hi hj, calibValue, calibValue]
  ring

/-- Unconvertible-unit failure: with `use_volt=True` and a selected
channel whose stored unit has no defined ratio, the decode call fails
with the `UnconvertibleUnit` error. -/
theorem decode_unconv (hdr : MicromedHdr) (packet : List ℕ) (i : ℕ)
    (hch : hdr.chNames.length = hdr.nbOfChannels)
    (her : hdr.elecRefs.length = hdr.nbOfChannels)
    (hpos : 0 < hdr.nbOfChannels)
    (hnb : hdr.nbOfBytes = 2)
    (hmod : packet.length % 2 = 0)
    (hi : i < hdr.nbOfChannels)
    (hnone : unitToVolt ((hdr.elecRefs.getD i defaultElecRef).units) = none) :
    isUnconvertibleUnitError (decodeDataEegPacket hdr packet none false true false) = true := by
  have hbound : ∀ k, k < hdr.nbOfChannels →
      ∀ j, j < packet.length / hdr.nbOfBytes / hdr.nbOfChannels →
      j * hdr.nbOfChannels + k <
        ((List.range (packet.length / 2)).map (fun k2 => (u16 packet (2 * k2) : ℤ))).length := by
    intro k hk j hj
    rw [hnb] at hj
    have h1 : (j + 1) * hdr.nbOfChannels ≤
        (packet.length / 2 / hdr.nbOfChannels) * hdr.nbOfChannels :=
      Nat.mul_le_mul_right _ hj
    have h2 : (packet.length / 2 / hdr.nbOfChannels) * hdr.nbOfChannels ≤
        packet.length / 2 := Nat.div_mul_le_self _ _
    have h3 : j * hdr.nbOfChannels + k < (j + 1) * hdr.nbOfChannels := by
      simp only [Nat.add_mul, Nat.one_mul]
      omega
    simp only [List.length_map, List.length_range]
    omega
  have hmap := mapE_first_err (fun k =>
      if k < hdr.chNames.length then
        if hdr.chNames.contains (hdr.chNames.getD k "") = true then
          decodeRow hdr
              ((List.range (packet.length / 2)).map (fun k2 => (u16 packet (2 * k2) : ℤ)))
              (packet.length / hdr.nbOfBytes / hdr.nbOfChannels) false true k >>=
            (fun r => Except.ok (some r))
        else Except.ok none
      else Except.error DecodeErr.indexOut)
    (fun e => ∃ us, e = DecodeErr.unconvertibleUnit us)
    (List.range hdr.nbOfChannels)
    (by
      intro k hk
      rw [List.mem_range] at hk
      dsimp only
      rw [if_pos (by omega), if_pos (List.elem_eq_true_of_mem (getD_mem _ _ _ (by omega)))]
      cases hu : unitToVolt ((hdr.elecRefs.getD k defaultElecRef).units) with
      | none =>
        refine Or.inr
          ⟨DecodeErr.unconvertibleUnit ((hdr.elecRefs.getD k defaultElecRef).units),
            ?_, ⟨_, rfl⟩⟩
        rw [decodeRow_unconv (by omega) hu]
        rfl
      | some r =>
        exact Or.inl ⟨_, by
          rw [decodeRow_eq (by omega) (by
            unfold channelFactor
            rw [if_pos rfl, hu]) (fun j hj => hbound k hk j hj), okBind]⟩)
    (by
      refine ⟨i, by simpa using hi, ?_⟩
      intro b hb
      dsimp only at hb
      rw [if_pos (by omega), if_pos (List.elem_eq_true_of_mem (getD_mem _ _ _ (by omega)))] at hb
      rw [decodeRow_unconv (by omega) hnone] at hb
      cases hb)
  obtain ⟨e, hmapE, us, rfl⟩ := hmap
  simp only [decodeDataEegPacket, Option.getD_none, Bool.false_eq_true, if_false]
  rw [if_pos (Or.inr hnb : hdr.nbOfBytes = 1 ∨ hdr.nbOfBytes = 2), okBind]
  simp only [Bool.false_eq_true, if_false]
  rw [frombufferU16_ok hmod, okBind, if_neg (by omega : ¬ hdr.nbOfChannels = 0), okBind,
    hmapE]
  rfl

/-- **C4.** Volt scaling: for channels whose units have a defined ratio,
`decode(use_volt=True)` equals `decode(use_volt=False)` scaled elementwise
by that ratio (exactly, in the rational model); a decode call with
`use_volt=True` on a selected channel whose stored unit has no defined
ratio fails with the `UnconvertibleUnit` error. -/
theorem claim_c4_volt_scaling (hdr : MicromedHdr) (packet : List ℕ)
    (hch : hdr.chNames.length = hdr.nbOfChannels)
    (her : hdr.elecRefs.length = hdr.nbOfChannels)
    (hpos : 0 < hdr.nbOfChannels)
    (hnb : hdr.nbOfBytes = 2)
    (hmod : packet.length % 2 = 0) :
    ((∀ i, i < hdr.nbOfChannels →
        (unitToVolt ((hdr.elecRefs.getD i defaultElecRef).units)).isSome = true) →
      ∃ M M1,
        decodeDataEegPacket hdr packet none false false false = .ok (M, hdr.chNames, true) ∧
        decodeDataEegPacket hdr packet none false true false = .ok (M1, hdr.chNames, true) ∧
        ∀ i, i < hdr.nbOfChannels →
          ∀ j, j < packet.length / 2 / hdr.nbOfChannels →
          (M1.getD i []).getD j 0 =
            ((unitToVolt ((hdr.elecRefs.getD i defaultElecRef).units)).getD 0) *
              ((M.getD i []).getD j 0)) ∧
    (∀ i, i < hdr.nbOfChannels →
      unitToVolt ((hdr.elecRefs.getD i defaultElecRef).units) = none →
      isUnconvertibleUnitError (decodeDataEegPacket hdr packet none false true false) =
        true) :=
  ⟨fun hall => decode_volt_pair hdr packet hch her hpos hnb hmod hall,
   fun i hi hnone => decode_unconv hdr packet i hch her hpos hnb hmod hi hnone⟩

/-- **C6 (amended).** With `check_data=False`, the decoded matrix depends
on `picks` only through membership: two pick lists containing the same
names — in particular `[A, B]` and `[B, A]` — produce identical matrices.
The row order follows the header's channel storage order, not the order
of the picks list; the stored `picks_id` array is not consulted by
`decode_data_eeg_packet`. -/
theorem claim_c6_storage_order (hdr : MicromedHdr) (packet : List ℕ)
    (p1 p2 : List String) (keepRaw useVolt : Bool)
    (hm : ∀ s, p1.contains s = p2.contains s) :
    (decodeDataEegPacket hdr packet (some p1) keepRaw useVolt false).map (fun r => r.1) =
    (decodeDataEegPacket hdr packet (some p2) keepRaw useVolt false).map (fun r => r.1) := by
  simp only [decodeDataEegPacket, Option.getD_some, Bool.false_eq_true, if_false,
    eq_self_iff_true, if_true, hm,
    apply_ite (Except.map (fun (r : List (List ℚ) × List String × Bool) => r.1)),
    exceptMap_bind, exceptMap_ok, exceptMap_err, okBind, errBind]

/-- Two-channel header for the C6 counterexample. -/
def exHdrAB : MicromedHdr :=
  { nbOfBytes := 2, nbOfChannels := 2, chNames := ["A-G2", "B-G2"],
    elecRefs := [{ factor := 1, logicGround := 0, units := "μV" },
                 { factor := 1, logicGround := 0, units := "μV" }] }

/-- **C6 counterexample.** Decoding the same packet with picks
`["A-G2","B-G2"]` and `["B-G2","A-G2"]` (default `check_data=True`)
yields *identical* matrices, contradicting the claim that they are
non-identical row permutations of each other. -/
theorem claim_c6_counterexample :
    (decodeDataEegPacket exHdrAB [1, 0, 2, 0, 3, 0, 4, 0] (some ["A-G2", "B-G2"])
        false false true).map (fun r => r.1) =
      (decodeDataEegPacket exHdrAB [1, 0, 2, 0, 3, 0, 4, 0] (some ["B-G2", "A-G2"])
        false false true).map (fun r => r.1) ∧
    (decodeDataEegPacket exHdrAB [1, 0, 2, 0, 3, 0, 4, 0] (some ["A-G2", "B-G2"])
        false false true).isOk = true :=
  ⟨rfl, rfl⟩

/-- Witness for C6: the two concrete pick lists `["A-G2","B-G2"]` and
`["B-G2","A-G2"]` agree on membership, and the theorem yields equal
decoded matrices for them on a concrete packet. -/
theorem claim_c6_storage_order_witness :
    (∀ s : String, (["A-G2", "B-G2"] : List String).contains s
        = (["B-G2", "A-G2"] : List String).contains s) ∧
    (decodeDataEegPacket exHdrAB [1, 0, 2, 0] (some ["A-G2", "B-G2"]) false false false).map
        (fun r => r.1) =
      (decodeDataEegPacket exHdrAB [1, 0, 2, 0] (some ["B-G2", "A-G2"]) false false false).map
        (fun r => r.1) := by
  have hm : ∀ s : String, (["A-G2", "B-G2"] : List String).contains s
      = (["B-G2", "A-G2"] : List String).contains s := by
    intro s
    simp [List.contains_cons, Bool.or_comm]
  exact ⟨hm, claim_c6_storage_order exHdrAB [1, 0, 2, 0] _ _ false false hm⟩

/-- **C7 (amended).** When the packet byte count is a multiple of the
element size (`n_bytes` for `n_bytes ∈ {2,4}`), a decode call succeeds and
returns `⌊byte_length / n_bytes / channel_count⌋` samples per channel —
silently dropping any whole-element remainder that does not fill a full
multi-channel sample.  (When the byte count is not a multiple of the
element size, `np.frombuffer` raises instead — see the counterexample.) -/
theorem claim_c7_sample_count (hdr : MicromedHdr) (packet : List ℕ)
    (hch : hdr.chNames.length = hdr.nbOfChannels)
    (her : hdr.elecRefs.length = hdr.nbOfChannels)
    (hpos : 0 < hdr.nbOfChannels)
    (hnb : hdr.nbOfBytes = 2 ∨ hdr.nbOfBytes = 4)
    (hmod : packet.length % hdr.nbOfBytes = 0) :
    ∃ M, decodeDataEegPacket hdr packet none false false false = .ok (M, hdr.chNames, true) ∧
      M.length = hdr.nbOfChannels ∧
      ∀ row ∈ M, row.length = packet.length / hdr.nbOfBytes / hdr.nbOfChannels := by
  rcases hnb with hnb | hnb
  · have hclosed := decode_closed hdr packet false false
      ((List.range (packet.length / 2)).map (fun k => (u16 packet (2 * k) : ℤ)))
      (fun k => (hdr.elecRefs.getD k defaultElecRef).factor)
      hch her hpos (Or.inl ⟨Or.inr hnb, rfl⟩)
      (by
        simp only [Bool.false_eq_true, if_false]
        exact frombufferU16_ok (by rw [← hnb]; exact hmod))
      (by rw [hnb]; simp)
      (fun k _ => rfl)
    refine ⟨_, hclosed, by simp, ?_⟩
    intro row hrow
    simp only [List.mem_map] at hrow
    obtain ⟨i2, hi2, rfl⟩ := hrow
    simp
  · have hclosed := decode_closed hdr packet false true
      ((List.range (packet.length / 4)).map (fun k => i32 packet (4 * k)))
      (fun k => (hdr.elecRefs.getD k defaultElecRef).factor)
      hch her hpos (Or.inr ⟨hnb, rfl⟩)
      (by
        simp only [if_true]
        exact frombufferI32_ok (by rw [← hnb]; exact hmod))
      (by rw [hnb]; simp)
      (fun k _ => rfl)
    refine ⟨_, hclosed, by simp, ?_⟩
    intro row hrow
    simp only [List.mem_map] at hrow
    obtain ⟨i2, hi2, rfl⟩ := hrow
    simp

/-- One-channel header for the C7 witness and counterexample. -/
def exHdrC7 : MicromedHdr :=
  { nbOfBytes := 2, nbOfChannels := 2, chNames := ["A-G2", "B-G2"],
    elecRefs := [{ factor := 1, logicGround := 0, units := "μV" },
                 { factor := 1, logicGround := 0, units := "μV" }] }

theorem claim_c7_sample_count_witness :
    (([1, 0, 2, 0, 3, 0] : List ℕ).length % exHdrC7.nbOfBytes = 0) ∧
    ¬ (([1, 0, 2, 0, 3, 0] : List ℕ).length %
      (exHdrC7.nbOfBytes * exHdrC7.nbOfChannels) = 0) ∧
    (∃ M, decodeDataEegPacket exHdrC7 [1, 0, 2, 0, 3, 0] none false false false =
      .ok (M, exHdrC7.chNames, true) ∧
      M.length = exHdrC7.nbOfChannels ∧
      ∀ row ∈ M, row.length =
        ([1, 0, 2, 0, 3, 0] : List ℕ).length / exHdrC7.nbOfBytes / exHdrC7.nbOfChannels) :=
  ⟨by decide, by decide,
   claim_c7_sample_count exHdrC7 [1, 0, 2, 0, 3, 0] rfl rfl (by decide)
     (Or.inl rfl) (by decide)⟩

/-- Header with a single channel for the C7 counterexample. -/
def exHdrOne : MicromedHdr :=
  { nbOfBytes := 2, nbOfChannels := 1, chNames := ["x1-G2"],
    elecRefs := [{ factor := 1, logicGround := 0, units := "μV" }] }

/-- **C7 counterexample.** A 3-byte packet with 2 bytes per sample and one
channel is not an exact multiple of `bytes_per_sample × channel_count`;
the claim says decoding succeeds with `⌊3/2/1⌋ = 1` sample, but
`np.frombuffer` raises because 3 is not a multiple of the 2-byte element
size, so the decode call fails. -/
theorem claim_c7_counterexample :
    (decodeDataEegPacket exHdrOne [0, 0, 0] none false false false).isOk = false ∧
    ¬ (([0, 0, 0] : List ℕ).length % (exHdrOne.nbOfBytes * exHdrOne.nbOfChannels) = 0) ∧
    ([0, 0, 0] : List ℕ).length / exHdrOne.nbOfBytes / exHdrOne.nbOfChannels = 1 :=
  ⟨rfl, by decide, by decide⟩

theorem unitsGet_unknown {k : ℤ} (hk : k ∉ ([-1, 0, 1, 2, 100, 101, 102] : List ℤ)) :
    unitsGet k = "μV" := by
  simp only [List.mem_cons, List.not_mem_nil, or_false, not_or] at hk
  obtain ⟨h1, h2, h3, h4, h5, h6, h7⟩ := hk
  have e1 : (k == (-1 : ℤ)) = false := beq_eq_false_iff_ne.mpr h1
  have e2 : (k == (0 : ℤ)) = false := beq_eq_false_iff_ne.mpr h2
  have e3 : (k == (1 : ℤ)) = false := beq_eq_false_iff_ne.mpr h3
  have e4 : (k == (2 : ℤ)) = false := beq_eq_false_iff_ne.mpr h4
  have e5 : (k == (100 : ℤ)) = false := beq_eq_false_iff_ne.mpr h5
  have e6 : (k == (101 : ℤ)) = false := beq_eq_false_iff_ne.mpr h6
  have e7 : (k == (102 : ℤ)) = false := beq_eq_false_iff_ne.mpr h7
  simp [unitsGet, UNITS, List.lookup, e1, e2, e3, e4, e5, e6, e7]

/-- **C9.** A stored 2-byte unit code outside the `UNITS` table is
silently mapped to `"μV"` by the header reader, so a subsequent decode
with `use_volt=True` scales such channels by `1e-6` and never raises an
unconvertible-unit error for an unknown code. -/
theorem claim_c9_unknown_unit_code (k : ℤ) (hdr : MicromedHdr) (packet : List ℕ)
    (hk : k ∉ ([-1, 0, 1, 2, 100, 101, 102] : List ℤ))
    (hch : hdr.chNames.length = hdr.nbOfChannels)
    (her : hdr.elecRefs.length = hdr.nbOfChannels)
    (hpos : 0 < hdr.nbOfChannels)
    (hnb : hdr.nbOfBytes = 2)
    (hmod : packet.length % 2 = 0)
    (hunits : ∀ i, i < hdr.nbOfChannels →
      (hdr.elecRefs.getD i defaultElecRef).units = unitsGet k) :
    unitsGet k = "μV" ∧ unitToVolt (unitsGet k) = some (1 / 1000000) ∧
    ∃ M M1,
      decodeDataEegPacket hdr packet none false false false = .ok (M, hdr.chNames, true) ∧
      decodeDataEegPacket hdr packet none false true false = .ok (M1, hdr.chNames, true) ∧
      ∀ i, i < hdr.nbOfChannels →
        ∀ j, j < packet.length / 2 / hdr.nbOfChannels →
        (M1.getD i []).getD j 0 = (1 / 1000000 : ℚ) * ((M.getD i []).getD j 0) := by
  have hmu := unitsGet_unknown hk
  have hr : unitToVolt (unitsGet k) = some (1 / 1000000) := by
    rw [hmu]
    rfl
  obtain ⟨M, M1, hd0, hd1, hpw⟩ := decode_volt_pair hdr packet hch her hpos hnb hmod
    (fun i hi => by rw [hunits i hi, hr]; rfl)
  refine ⟨hmu, hr, M, M1, hd0, hd1, ?_⟩
  intro i hi j hj
  have hval := hpw i hi j hj
  rw [hunits i hi, hr] at hval
  simpa using hval

/-- One-channel header with a full `_read_labcod`-style calibration record
(logical range 0..3, ground 1, physical range 0..8) for the C3 witness. -/
def exHdrC3 : MicromedHdr :=
  { nbOfBytes := 2, nbOfChannels := 1, chNames := ["x1-G2"],
    elecRefs := [{ factor := labcodFactor 0 3 0 8, logicGround := 1, units := "μV" }] }

theorem claim_c3_calibration_formula_witness :
    (0 < exHdrC3.nbOfChannels) ∧
    (∃ M, decodeDataEegPacket exHdrC3 [7, 0, 9, 0] none false false false =
      .ok (M, exHdrC3.chNames, true) ∧
      (M.getD 0 []).getD 1 0 =
        ((u16 [7, 0, 9, 0] (2 * (1 * exHdrC3.nbOfChannels + 0)) : ℚ) - ((1 : ℤ) : ℚ)) *
          labcodFactor 0 3 0 8) :=
  ⟨by decide,
   claim_c3_calibration_formula exHdrC3 [7, 0, 9, 0] 0 1 0 3 0 8 1 "μV" rfl rfl (by decide)
     rfl (by decide) (by decide) (by decide) rfl⟩

/-- One-channel header whose unit (`"%"`) has no volt ratio, for the C4
witness. -/
def exHdrPct : MicromedHdr :=
  { nbOfBytes := 2, nbOfChannels := 1, chNames := ["p-G2"],
    elecRefs := [{ factor := 1, logicGround := 0, units := "%" }] }

theorem claim_c4_volt_scaling_witness :
    (∃ M M1,
      decodeDataEegPacket exHdrC3 [7, 0] none false false false =
        .ok (M, exHdrC3.chNames, true) ∧
      decodeDataEegPacket exHdrC3 [7, 0] none false true false =
        .ok (M1, exHdrC3.chNames, true) ∧
      ∀ i, i < exHdrC3.nbOfChannels →
        ∀ j, j < ([7, 0] : List ℕ).length / 2 / exHdrC3.nbOfChannels →
        (M1.getD i []).getD j 0 =
          ((unitToVolt ((exHdrC3.elecRefs.getD i defaultElecRef).units)).getD 0) *
            ((M.getD i []).getD j 0)) ∧
    unitToVolt ((exHdrPct.elecRefs.getD 0 defaultElecRef).units) = none ∧
    isUnconvertibleUnitError
      (decodeDataEegPacket exHdrPct [7, 0] none false true false) = true :=
  ⟨(claim_c4_volt_scaling exHdrC3 [7, 0] rfl rfl (by decide) rfl (by decide)).1
     (fun i hi => by
       rw [show exHdrC3.nbOfChannels = 1 from rfl] at hi
       have h0 : i = 0 := by omega
       subst h0
       decide),
   rfl,
   (claim_c4_volt_scaling exHdrPct [7, 0] rfl rfl (by decide) rfl (by decide)).2 0
     (by decide) rfl⟩

/-- One-channel header whose stored unit comes from the unknown unit code
55, for the C9 witness. -/
def exHdrC9 : MicromedHdr :=
  { nbOfBytes := 2, nbOfChannels := 1, chNames := ["x1-G2"],
    elecRefs := [{ factor := 2, logicGround := 1, units := unitsGet 55 }] }

theorem claim_c9_unknown_unit_code_witness :
    ((55 : ℤ) ∉ ([-1, 0, 1, 2, 100, 101, 102] : List ℤ)) ∧
    (unitsGet 55 = "μV" ∧ unitToVolt (unitsGet 55) = some (1 / 1000000) ∧
     ∃ M M1,
       decodeDataEegPacket exHdrC9 [7, 0] none false false false =
         .ok (M, exHdrC9.chNames, true) ∧
       decodeDataEegPacket exHdrC9 [7, 0] none false true false =
         .ok (M1, exHdrC9.chNames, true) ∧
       ∀ i, i < exHdrC9.nbOfChannels →
         ∀ j, j < ([7, 0] : List ℕ).length / 2 / exHdrC9.nbOfChannels →
         (M1.getD i []).getD j 0 = (1 / 1000000 : ℚ) * ((M.getD i []).getD j 0)) :=
  ⟨by decide,
   claim_c9_unknown_unit_code 55 exHdrC9 [7, 0] (by decide) rfl rfl (by decide) rfl
     (by decide)
     (fun i hi => by
       rw [show exHdrC9.nbOfChannels = 1 from rfl] at hi
       have h0 : i = 0 := by omega
       subst h0
       rfl)⟩

/-! ## Helper lemmas and concrete buffers: header reader -/

theorem exceptBind_ok_inv {ε α β : Type} {x : Except ε α} {g : α → Except ε β} {b : β}
    (h : (x >>= g) = .ok b) : ∃ a, x = .ok a ∧ g a = .ok b := by
  cases x with
  | error e => rw [errBind] at h; cases h
  | ok a => exact ⟨a, rfl, by rw [okBind] at h; exact h⟩

theorem dictGet_ok_isSome {d : List (String × ℕ × ℕ)} {nm : String} {v : ℕ × ℕ}
    (h : dictGet d nm = .ok v) : (d.reverse.lookup nm).isSome = true := by
  unfold dictGet at h
  cases hl : d.reverse.lookup nm with
  | none => rw [hl] at h; cases h
  | some w => rfl

/-- The zone names that `_read_header` looks up in the directory. -/
def expectedZoneNames : List String :=
  ["ORDER", "LABCOD", "NOTE", "FLAGS", "TRONCA", "IMPED_B", "IMPED_E", "MONTAGE",
   "COMPRESS", "DVIDEO", "EVENT A", "EVENT B", "TRIGGER"]

/-- Little-endian 2-byte encoding. -/
def le2 (n : ℕ) : List ℕ := [n % 256, n / 256 % 256]

/-- Little-endian 4-byte encoding. -/
def le4 (n : ℕ) : List ℕ := [n % 256, n / 256 % 256, n / 65536 % 256, n / 16777216 % 256]

/-- ASCII bytes of a string. -/
def strBytes (s : String) : List ℕ := s.toList.map Char.toNat

/-- Pad a byte list to `k` bytes with padding byte `pad`. -/
def padBytes (k pad : ℕ) (bs : List ℕ) : List ℕ := bs ++ List.replicate (k - bs.length) pad

/-- One 16-byte zone-directory entry: space-padded 8-byte name, 4-byte
position, 4-byte length. -/
def zoneEntryBytes (nm : String) (pos len : ℕ) : List ℕ :=
  padBytes 8 32 (strBytes nm) ++ le4 pos ++ le4 len

/-- A 15-entry zone directory whose data zones are empty or point at the
bytes that follow the fixed header region. -/
def sampleZoneTable : List ℕ :=
  zoneEntryBytes "ORDER" 416 2 ++ zoneEntryBytes "LABCOD" 418 128 ++
  zoneEntryBytes "NOTE" 416 0 ++ zoneEntryBytes "FLAGS" 416 0 ++
  zoneEntryBytes "TRONCA" 416 0 ++ zoneEntryBytes "IMPED_B" 416 0 ++
  zoneEntryBytes "IMPED_E" 416 0 ++ zoneEntryBytes "MONTAGE" 416 0 ++
  zoneEntryBytes "COMPRESS" 0 0 ++ zoneEntryBytes "DVIDEO" 416 0 ++
  zoneEntryBytes "EVENT A" 416 0 ++ zoneEntryBytes "EVENT B" 416 0 ++
  zoneEntryBytes "TRIGGER" 416 0 ++ zoneEntryBytes "SPARE A" 0 0 ++
  zoneEntryBytes "SPARE B" 0 0

/-- One 128-byte `LABCOD` record: channel "x1" against ground "G2",
logical range 0..3, logical ground 1, physical range 0..8, unit code 0. -/
def sampleLabRecord : List ℕ :=
  [0, 0] ++ padBytes 6 0 (strBytes "x1") ++ padBytes 6 0 (strBytes "G2") ++
  le4 0 ++ le4 3 ++ le4 1 ++ le4 0 ++ le4 8 ++ le2 0 ++ List.replicate 92 0

/-- A complete 546-byte header buffer with `nchan` channels (0 or 1), a
valid recording time (2000-01-01), sampling rate 2048, 2 bytes per sample
and the given header-type byte. -/
def sampleHeaderBytes (nchan htype : ℕ) : List ℕ :=
  List.replicate 106 0 ++
  [1, 1, 100] ++ List.replicate 19 0 ++
  [1, 1, 100, 0, 0, 0] ++
  le2 0 ++ le2 0 ++ le4 546 ++ le2 nchan ++ le2 0 ++ le2 2048 ++ le2 2 ++
  le2 0 ++ le2 0 ++ le4 0 ++ le2 0 ++
  List.replicate 15 0 ++
  [htype] ++
  sampleZoneTable ++
  le2 0 ++
  sampleLabRecord

/-- **C8 (amended).** If header decoding succeeds, the header-type byte is
one of the five codes of the `HEADER_TYPE` table and every expected zone
name is present in the parsed zone directory; contrapositively, a
header-type byte outside the table or a missing expected zone name makes
`_read_header` raise, and no partial header is returned.  (There is no
*single* supported header-type value — see the counterexample — and zone
names are looked up in a dictionary rather than checked at a fixed
directory slot.) -/
theorem claim_c8_header_validation (f : List ℕ) (h : (readHeader f).isOk = true) :
    (HEADER_TYPE.lookup (i8 f 175)).isSome = true ∧
    ∀ nm ∈ expectedZoneNames, ((zoneDirectory f).reverse.lookup nm).isSome = true := by
  obtain ⟨orig, horig⟩ : ∃ o, readHeader f = .ok o := by
    cases hr : readHeader f with
    | error e => rw [hr] at h; cases h
    | ok o => exact ⟨o, rfl⟩
  simp only [readHeader] at horig
  obtain ⟨g1, hg1, horig⟩ := exceptBind_ok_inv horig
  obtain ⟨st, hst, horig⟩ := exceptBind_ok_inv horig
  obtain ⟨g2, hg2, horig⟩ := exceptBind_ok_inv horig
  obtain ⟨ht, hht, horig⟩ := exceptBind_ok_inv horig
  obtain ⟨ordZ, hOrd, horig⟩ := exceptBind_ok_inv horig
  obtain ⟨ordV, hOrdV, horig⟩ := exceptBind_ok_inv horig
  obtain ⟨labZ, hLab, horig⟩ := exceptBind_ok_inv horig
  obtain ⟨chans, hChans, horig⟩ := exceptBind_ok_inv horig
  obtain ⟨noteZ, hNote, horig⟩ := exceptBind_ok_inv horig
  obtain ⟨notes, hNotes, horig⟩ := exceptBind_ok_inv horig
  obtain ⟨flagsZ, hFlags, horig⟩ := exceptBind_ok_inv horig
  obtain ⟨g3, hg3, horig⟩ := exceptBind_ok_inv horig
  obtain ⟨troncaZ, hTronca, horig⟩ := exceptBind_ok_inv horig
  obtain ⟨g4, hg4, horig⟩ := exceptBind_ok_inv horig
  obtain ⟨impbZ, hImpb, horig⟩ := exceptBind_ok_inv horig
  obtain ⟨g5, hg5, horig⟩ := exceptBind_ok_inv horig
  obtain ⟨impeZ, hImpe, horig⟩ := exceptBind_ok_inv horig
  obtain ⟨g6, hg6, horig⟩ := exceptBind_ok_inv horig
  obtain ⟨montZ, hMont, horig⟩ := exceptBind_ok_inv horig
  obtain ⟨g7, hg7, horig⟩ := exceptBind_ok_inv horig
  obtain ⟨compZ, hComp, horig⟩ := exceptBind_ok_inv horig
  obtain ⟨g8, hg8, horig⟩ := exceptBind_ok_inv horig
  obtain ⟨dvidZ, hDvid, horig⟩ := exceptBind_ok_inv horig
  obtain ⟨g9, hg9, horig⟩ := exceptBind_ok_inv horig
  obtain ⟨evaZ, hEva, horig⟩ := exceptBind_ok_inv horig
  obtain ⟨g10, hg10, horig⟩ := exceptBind_ok_inv horig
  obtain ⟨evbZ, hEvb, horig⟩ := exceptBind_ok_inv horig
  obtain ⟨g11, hg11, horig⟩ := exceptBind_ok_inv horig
  obtain ⟨trigZ, hTrig, horig⟩ := exceptBind_ok_inv horig
  constructor
  · cases hl : HEADER_TYPE.lookup (i8 f 175) with
    | none => rw [hl] at hht; cases hht
    | some s => rfl
  · intro nm hnm
    fin_cases hnm
    · exact dictGet_ok_isSome hOrd
    · exact dictGet_ok_isSome hLab
    · exact dictGet_ok_isSome hNote
    · exact dictGet_ok_isSome hFlags
    · exact dictGet_ok_isSome hTronca
    · exact dictGet_ok_isSome hImpb
    · exact dictGet_ok_isSome hImpe
    · exact dictGet_ok_isSome hMont
    · exact dictGet_ok_isSome hComp
    · exact dictGet_ok_isSome hDvid
    · exact dictGet_ok_isSome hEva
    · exact dictGet_ok_isSome hEvb
    · exact dictGet_ok_isSome hTrig

/-- Witness for C8: the concrete 546-byte buffer with header-type byte 4
decodes successfully, so the theorem yields its conclusion for it. -/
theorem claim_c8_header_validation_witness :
    (readHeader (sampleHeaderBytes 0 4)).isOk = true ∧
    ((HEADER_TYPE.lookup (i8 (sampleHeaderBytes 0 4) 175)).isSome = true ∧
     ∀ nm ∈ expectedZoneNames,
       ((zoneDirectory (sampleHeaderBytes 0 4)).reverse.lookup nm).isSome = true) :=
  ⟨rfl, claim_c8_header_validation (sampleHeaderBytes 0 4) rfl⟩

/-- Counterexample to C8 as stated: the header-type field has no *single*
supported value.  Two buffers that differ only in the header-type byte
(0, "Micromed System 1 Header type", versus 2, "Micromed System 98 Header
type") are both decoded successfully, since `_read_header` accepts every
key of the five-entry `HEADER_TYPE` table. -/
theorem claim_c8_counterexample :
    (readHeader (sampleHeaderBytes 0 0)).isOk = true ∧
    (readHeader (sampleHeaderBytes 0 2)).isOk = true ∧
    i8 (sampleHeaderBytes 0 0) 175 ≠ i8 (sampleHeaderBytes 0 2) 175 :=
  ⟨rfl, rfl, by decide⟩

/-- **C10 (code bug).** The claim says a successful header decode leaves
each `ElectrodeReferences` entry with its `factor`, `logic_ground` and
`units` fields populated and the remaining fields `None`.  In fact the
dataclass declared in header.py has **no** `factor` field at all
(`electrodeReferencesFields` lists its fields), while
`decode_data_header_packet` (in_out.py line 117) constructs every entry
with the keyword argument `factor=`: Python raises
`TypeError: unexpected keyword argument` for any header with at least one
channel, so header-packet decoding can never succeed on a non-trivial
header.  Concretely: `_read_header` itself accepts the one-channel buffer,
`"factor"` is not a dataclass field, and `decode_data_header_packet`
fails on that buffer. -/
theorem claim_c10_elec_refs_type_error :
    (readHeader (sampleHeaderBytes 1 0)).isOk = true ∧
    electrodeReferencesFields.contains "factor" = false ∧
    (decodeDataHeaderPacket (sampleHeaderBytes 1 0) none).isOk = false :=
  ⟨rfl, by decide, rfl⟩

end Micromed
